import Mathlib

/-!
Verification model of the UTD-Kiwi-Menu trading and account ledger.

The definitions below are a shallow embedding of the Python source:
`src/app/service/portfolio_service.py` (buy, sell, liquidate) and the
data layer `src/app/db.py` / `src/app/data_access.py` (user, portfolio,
security, investment and transaction records).  Python floats for money
are modelled as exact rationals; bcrypt digests are modelled abstractly
by the `Stored` type; each database helper commits its own mutation, so
service operations return the (possibly partially mutated) state even on
a raised business exception, mirroring the source.
-/

/-- Python `str.upper()` on the character list (kernel-computable). -/
def pyUpper (s : String) : String :=
  ⟨s.data.map Char.toUpper⟩

/-- Python whitespace for `str.strip()`. -/
def isPyWS (c : Char) : Bool :=
  c == ' ' || c == '\t' || c == '\n' || c == '\r' ||
    c == Char.ofNat 11 || c == Char.ofNat 12

/-- Python `str.strip()`: drop whitespace from both ends. -/
def pyStrip (s : String) : String :=
  ⟨((s.data.dropWhile isPyWS).reverse.dropWhile isPyWS).reverse⟩

/-- Stored credential: either an (abstract) bcrypt digest of a plaintext,
or a raw non-digest string such as legacy plaintext.  `bcrypt.checkpw`
succeeds on a digest iff the plaintext matches, and raises (hence
`check_password` returns false) on a non-digest input. -/
inductive Stored where
  | digest (of : String)
  | raw (s : String)
deriving DecidableEq, Repr

/-- Mirrors `check_password` in src/app/db.py: false on empty password or
empty stored value, false when `bcrypt.checkpw` raises on a malformed
(non-digest) stored credential, else the bcrypt comparison. -/
def check_password (password : String) (hashed : Stored) : Bool :=
  match hashed with
  | .digest of => if password = "" then false else password == of
  | .raw _ => false

/-- Error kinds raised by the service and data layers
(src/app/exceptions.py). -/
inductive Err where
  | validation
  | userNotFound
  | portfolioNotFound
  | authorization
  | securityNotAvailable
  | insufficientFunds
  | insufficientShares
  | adminProtection
  | invalidCredentials
  | securityNotFound
  | uniqueConstraint
  | dataAccess
deriving DecidableEq, Repr

/-- User record (UserModel in src/app/models.py). -/
structure UserR where
  username : String
  password : Stored
  firstName : String
  lastName : String
  balance : ℚ
  role : String
deriving DecidableEq, Repr

/-- Portfolio record (PortfolioModel). -/
structure PortfolioR where
  id : Int
  name : String
  description : String
  strategy : String
  owner : String
deriving DecidableEq, Repr

/-- Security record (SecurityModel). -/
structure SecurityR where
  ticker : String
  name : String
  referencePrice : ℚ
deriving DecidableEq, Repr

/-- Transaction type enum (TransactionType). -/
inductive TxnType where
  | buyT
  | sellT
deriving DecidableEq, Repr

/-- Transaction ledger record (TransactionModel). -/
structure TxnR where
  username : String
  portfolioId : Int
  ticker : String
  ttype : TxnType
  quantity : Int
  price : ℚ
deriving DecidableEq, Repr

/-- Investment row: (portfolio id, ticker, quantity) (InvestmentModel,
with the security foreign key replaced by the unique ticker). -/
structure InvR where
  portfolioId : Int
  ticker : String
  quantity : Int
deriving DecidableEq, Repr

/-- The whole persistent database state, plus the test price override
(`_TEST_PRICE_MAP` in src/app/service/portfolio_service.py). -/
structure St where
  users : List UserR
  portfolios : List PortfolioR
  securities : List SecurityR
  investments : List InvR
  transactions : List TxnR
  priceOverride : Option (List (String × ℚ))
deriving DecidableEq, Repr

/-- Update the first element satisfying `p` (SQLAlchemy `.first()` then
mutate-and-commit). -/
def updFirst (p : α → Bool) (f : α → α) : List α → List α
  | [] => []
  | x :: xs => if p x then f x :: xs else x :: updFirst p f xs

/-- Default price table in `get_price_map`
(src/app/service/portfolio_service.py lines 32-43). -/
def defaultPriceMap : List (String × ℚ) :=
  [("AAPL", 175), ("GOOGL", 140), ("MSFT", 410), ("TSLA", 250),
   ("AMZN", 145), ("NVDA", 450), ("META", 325), ("NFLX", 400),
   ("SPOT", 180), ("UBER", 65)]

/-- `get_price_map`: the test override if set, else the default table. -/
def get_price_map (st : St) : List (String × ℚ) :=
  match st.priceOverride with
  | some m => m
  | none => defaultPriceMap

/-- `symbol in price_map` / `price_map[symbol]` on the dict. -/
def lookupPrice (m : List (String × ℚ)) (sym : String) : Option ℚ :=
  (m.find? (fun kv => kv.1 == sym)).map (fun kv => kv.2)

/-- `_get_security_name` (src/app/service/portfolio_service.py). -/
def get_security_name (ticker : String) : String :=
  let names : List (String × String) :=
    [("AAPL", "Apple Inc."), ("GOOGL", "Alphabet Inc."),
     ("MSFT", "Microsoft Corporation"), ("TSLA", "Tesla Inc."),
     ("AMZN", "Amazon.com Inc."), ("NVDA", "NVIDIA Corporation"),
     ("META", "Meta Platforms Inc."), ("NFLX", "Netflix Inc."),
     ("SPOT", "Spotify Technology S.A."), ("UBER", "Uber Technologies Inc.")]
  match names.find? (fun kv => kv.1 == (pyUpper ticker)) with
  | some kv => kv.2
  | none => (pyUpper ticker)

/-- `query_user`: first user whose username equals the stripped name. -/
def query_user (st : St) (username : String) : Option UserR :=
  st.users.find? (fun u => u.username == (pyStrip username))

/-- `query_portfolio`: first portfolio with the given id. -/
def query_portfolio (st : St) (pid : Int) : Option PortfolioR :=
  st.portfolios.find? (fun p => p.id == pid)

/-- Does a security row with this (upper-cased) ticker exist. -/
def securityExists (st : St) (ticker : String) : Bool :=
  st.securities.any (fun s => s.ticker == (pyUpper ticker))

/-- `get_or_create_security`: create the row if the ticker is unknown. -/
def get_or_create_security (st : St) (ticker name : String) (referencePrice : ℚ) : St :=
  if securityExists st ticker then st
  else { st with securities :=
          st.securities ++ [⟨(pyUpper ticker), name, referencePrice⟩] }

/-- `get_investment`: None when the security is unknown, else the first
investment row for (portfolio, security). -/
def get_investment (st : St) (pid : Int) (ticker : String) : Option InvR :=
  if securityExists st ticker then
    st.investments.find? (fun r => r.portfolioId == pid && r.ticker == (pyUpper ticker))
  else none

/-- Raw quantity of the first matching investment row (0 when absent);
used to state holdings deltas. -/
def invQty (st : St) (pid : Int) (ticker : String) : Int :=
  match st.investments.find? (fun r => r.portfolioId == pid && r.ticker == (pyUpper ticker)) with
  | some r => r.quantity
  | none => 0

/-- Is there an investment row for (portfolio, ticker). -/
def hasInvRow (st : St) (pid : Int) (ticker : String) : Bool :=
  st.investments.any (fun r => r.portfolioId == pid && r.ticker == (pyUpper ticker))

/-- `update_user_balance`: set the balance of the first matching user;
no-op (returns False, ignored by callers) when the user is absent. -/
def update_user_balance (st : St) (username : String) (newBalance : ℚ) : St :=
  let users := updFirst (fun u => u.username == (pyStrip username))
    (fun u => { u with balance := newBalance }) st.users
  { st with users := users }

/-- `update_investment` (src/app/db.py lines 482-518): no-op when the
security is unknown; delete the row when the new quantity is ≤ 0; update
the existing row, or create one when absent and the quantity is > 0. -/
def update_investment (st : St) (pid : Int) (ticker : String) (quantity : Int) : St :=
  if securityExists st ticker then
    match st.investments.find? (fun r => r.portfolioId == pid && r.ticker == (pyUpper ticker)) with
    | some _ =>
        if quantity ≤ 0 then
          let invs := st.investments.eraseP
            (fun r => r.portfolioId == pid && r.ticker == (pyUpper ticker))
          { st with investments := invs }
        else
          let invs := updFirst (fun r => r.portfolioId == pid && r.ticker == (pyUpper ticker))
            (fun r => { r with quantity := quantity }) st.investments
          { st with investments := invs }
    | none =>
        if quantity > 0 then
          { st with investments := st.investments ++ [⟨pid, (pyUpper ticker), quantity⟩] }
        else st
  else st

/-- `record_transaction` (src/app/db.py lines 388-430): requires user,
portfolio and security to exist, then appends one ledger record. -/
def record_transaction (st : St) (username : String) (pid : Int) (ticker : String)
    (ttypeStr : String) (quantity : Int) (price : ℚ) : Except Err St :=
  match query_user st username with
  | none => .error .userNotFound
  | some _ =>
    match query_portfolio st pid with
    | none => .error .portfolioNotFound
    | some _ =>
      if securityExists st ticker then
        let tt : TxnType := if pyUpper ttypeStr == "BUY" then .buyT else .sellT
        .ok { st with transactions :=
                st.transactions ++ [⟨(pyStrip username), pid, (pyUpper ticker), tt, quantity, price⟩] }
      else .error .securityNotFound

/-- `investment.quantity if investment else 0` on a queried row. -/
def currentHoldingsOf : Option InvR → Int
  | some inv => inv.quantity
  | none => 0

/-- `buy_to_portfolio` (src/app/service/portfolio_service.py lines
129-203).  Each data-layer call commits separately, so the state is
returned alongside the outcome even on failure paths. -/
def buy_to_portfolio (st : St) (username symbol : String) (qty : Int) (pid : Int) :
    Except Err Unit × St :=
  if (pyStrip username) = "" then (.error .validation, st)
  else if (pyStrip symbol) = "" then (.error .validation, st)
  else if qty ≤ 0 then (.error .validation, st)
  else
    match query_user st (pyStrip username) with
    | none => (.error .userNotFound, st)
    | some user =>
      match query_portfolio st pid with
      | none => (.error .portfolioNotFound, st)
      | some portfolio =>
        if portfolio.owner ≠ (pyStrip username) then (.error .authorization, st)
        else
          let priceMap := get_price_map st
          let sym := pyUpper (pyStrip symbol)
          match lookupPrice priceMap sym with
          | none => (.error .securityNotAvailable, st)
          | some price =>
            let st1 := get_or_create_security st sym (get_security_name sym) price
            let cost := price * (qty : ℚ)
            if user.balance < cost then (.error .insufficientFunds, st1)
            else
              let st2 := update_user_balance st1 (pyStrip username) (user.balance - cost)
              let currentHoldings := currentHoldingsOf (get_investment st2 pid sym)
              let st3 := update_investment st2 pid sym (currentHoldings + qty)
              match record_transaction st3 (pyStrip username) pid sym "BUY" qty price with
              | .ok st4 => (.ok (), st4)
              | .error _ => (.error .dataAccess, st3)

/-- A supplied sale-price override that is negative
(src/app/service/portfolio_service.py line 61). -/
def negOverride : Option ℚ → Bool
  | some sp => sp < 0
  | none => false

/-- `sell_from_portfolio` (src/app/service/portfolio_service.py lines
46-126).  `salePrice` is the optional override; a supplied negative
override is rejected up front as a validation error. -/
def sell_from_portfolio (st : St) (username symbol : String) (qty : Int) (pid : Int)
    (salePrice : Option ℚ) : Except Err Unit × St :=
  if (pyStrip username) = "" then (.error .validation, st)
  else if (pyStrip symbol) = "" then (.error .validation, st)
  else if qty ≤ 0 then (.error .validation, st)
  else if negOverride salePrice then (.error .validation, st)
  else
    match query_user st (pyStrip username) with
    | none => (.error .userNotFound, st)
    | some user =>
      match query_portfolio st pid with
      | none => (.error .portfolioNotFound, st)
      | some portfolio =>
        if portfolio.owner ≠ (pyStrip username) then (.error .authorization, st)
        else
          let priceMap := get_price_map st
          let sym := pyUpper (pyStrip symbol)
          match lookupPrice priceMap sym with
          | none => (.error .securityNotAvailable, st)
          | some price =>
            let st1 := get_or_create_security st sym (get_security_name sym) price
            let currentHoldings := currentHoldingsOf (get_investment st1 pid sym)
            if currentHoldings < qty then (.error .insufficientShares, st1)
            else
              let sp := match salePrice with | some v => v | none => price
              let proceeds := sp * (qty : ℚ)
              let st2 := update_user_balance st1 (pyStrip username) (user.balance + proceeds)
              let st3 := update_investment st2 pid sym (currentHoldings - qty)
              match record_transaction st3 (pyStrip username) pid sym "SELL" qty sp with
              | .ok st4 => (.ok (), st4)
              | .error _ => (.error .dataAccess, st3)

/-- Number of users with role "admin" (src/app/db.py line 201). -/
def adminCount (st : St) : Nat :=
  st.users.countP (fun u => u.role == "admin")

/-- `delete_user` (src/app/db.py lines 188-217): UserNotFound when the
user is absent; AdminProtection with no mutation when the target is an
admin and at most one admin exists; otherwise the user row is deleted
(the ORM cascades to owned portfolios, their investments, and the user's
transactions, per src/app/models.py). -/
def delete_user (st : St) (username : String) : Except Err Unit × St :=
  if username = "" then (.error .validation, st)
  else
    match st.users.find? (fun u => u.username == (pyStrip username)) with
    | none => (.error .userNotFound, st)
    | some u =>
      if u.role = "admin" ∧ adminCount st ≤ 1 then (.error .adminProtection, st)
      else
        let deadPids := (st.portfolios.filter (fun p => p.owner == u.username)).map
          (fun p => p.id)
        let users2 := st.users.eraseP (fun v => v.username == (pyStrip username))
        let ports2 := st.portfolios.filter (fun p => !(p.owner == u.username))
        let invs2 := st.investments.filter (fun r => !(deadPids.contains r.portfolioId))
        let txns2 := st.transactions.filter
          (fun t => !(t.username == u.username || deadPids.contains t.portfolioId))
        (.ok (), { users := users2, portfolios := ports2, securities := st.securities,
                   investments := invs2, transactions := txns2,
                   priceOverride := st.priceOverride })

/-- `authenticate` (src/app/db.py lines 99-117): validation error on
empty input, InvalidCredentials when the user is absent or
`check_password` fails; pure on the database state (no write occurs on
any path). -/
def authenticate (st : St) (username password : String) : Except Err UserR :=
  if username = "" ∨ password = "" then .error .validation
  else
    match st.users.find? (fun u => u.username == (pyStrip username)) with
    | none => .error .invalidCredentials
    | some u =>
      if check_password password u.password then .ok u
      else .error .invalidCredentials

/-- Python dict assignment `m[k] = v`: replace in place, or append. -/
def dictSet {β : Type} (m : List (String × β)) (k : String) (v : β) :
    List (String × β) :=
  if m.any (fun kv => kv.1 == k) then
    m.map (fun kv => if kv.1 == k then (k, v) else kv)
  else m ++ [(k, v)]

/-- Dict membership test on an association list. -/
def hasKey {β : Type} (m : List (String × β)) (k : String) : Bool :=
  m.any (fun kv => kv.1 == k)

/-- Holdings snapshot of one portfolio (`convert_portfolio_to_domain`):
`holdings[ticker] = quantity` over the portfolio's investment rows. -/
def holdingsOf (st : St) (pid : Int) : List (String × Int) :=
  (st.investments.filter (fun r => r.portfolioId == pid)).foldl
    (fun m r => dictSet m r.ticker r.quantity) []

/-- Per-symbol outcome stored by `liquidate_investments`. -/
inductive LiqOutcome where
  | sold (qty : Int)
  | failed (e : Err)
deriving DecidableEq, Repr

/-- Result of `liquidate_investments`. -/
inductive LiqResult where
  | userNotFoundR
  | noHoldings
  | errorR (e : Err)
  | resultMap (m : List (String × LiqOutcome))
deriving DecidableEq, Repr

/-- One symbol step of the liquidation loop: positive snapshot quantity
triggers a sell; success and failure are both recorded per symbol and
processing continues. -/
def liqStep (username : String) (pid : Int)
    (acc : List (String × LiqOutcome) × St) (sq : String × Int) :
    List (String × LiqOutcome) × St :=
  if sq.2 > 0 then
    match sell_from_portfolio acc.2 username sq.1 sq.2 pid none with
    | (.ok _, st2) => (dictSet acc.1 sq.1 (.sold sq.2), st2)
    | (.error e, st2) => (dictSet acc.1 sq.1 (.failed e), st2)
  else acc

/-- The inner loop of liquidation over one portfolio's holdings
snapshot. -/
def liqPortfolio (username : String) (acc : List (String × LiqOutcome) × St)
    (ph : Int × List (String × Int)) : List (String × LiqOutcome) × St :=
  ph.2.foldl (liqStep username ph.1) acc

/-- `liquidate_investments` (src/app/service/portfolio_service.py lines
296-321): user-not-found signal when the user is absent, no-holdings
signal when no owned portfolio exists, else sell every positive holding
of every owned portfolio from a snapshot taken up front, collecting
per-symbol outcomes. -/
def liquidate_investments (st : St) (username : String) : LiqResult × St :=
  if username = "" then (.errorR .validation, st)
  else
    match query_user st username with
    | none => (.userNotFoundR, st)
    | some _ =>
      let owned := st.portfolios.filter (fun p => p.owner == username)
      if owned.isEmpty then (.noHoldings, st)
      else
        let snap := owned.map (fun p => (p.id, holdingsOf st p.id))
        let fin := snap.foldl (liqPortfolio username) ([], st)
        (.resultMap fin.1, fin.2)


/-- The state produced by a successful buy: security ensured, balance
debited, holdings incremented, one BUY ledger record appended. -/
def buyFinal (st : St) (uname sym : String) (qty pid : Int)
    (user : UserR) (price : ℚ) : St :=
  let st1 := get_or_create_security st sym (get_security_name sym) price
  let st2 := update_user_balance st1 uname (user.balance - price * (qty : ℚ))
  let st3 := update_investment st2 pid sym (invQty st pid sym + qty)
  { st3 with transactions :=
      st3.transactions ++ [⟨uname, pid, sym, .buyT, qty, price⟩] }

/-- The state produced by a successful sell: security ensured, balance
credited at the sale price, holdings decremented, one SELL ledger record
appended. -/
def sellFinal (st : St) (uname sym : String) (qty pid : Int)
    (user : UserR) (sp price : ℚ) : St :=
  let st1 := get_or_create_security st sym (get_security_name sym) price
  let st2 := update_user_balance st1 uname (user.balance + sp * (qty : ℚ))
  let st3 := update_investment st2 pid sym (invQty st pid sym - qty)
  { st3 with transactions :=
      st3.transactions ++ [⟨uname, pid, sym, .sellT, qty, sp⟩] }

/-- The ledger invariant of spec section 3: every investment row is
strictly positive (I1) and every balance is non-negative (I2). -/
def InvOK (st : St) : Prop :=
  (∀ r ∈ st.investments, 0 < r.quantity) ∧ (∀ u ∈ st.users, 0 ≤ u.balance)

/-- All prices supplied by the price oracle are non-negative (spec
section 3 declares prices non-negative; the default table satisfies
this). -/
def PricesOK (st : St) : Prop :=
  ∀ kv ∈ get_price_map st, 0 ≤ kv.2

instance (st : St) : Decidable (InvOK st) := by
  unfold InvOK
  infer_instance

instance (st : St) : Decidable (PricesOK st) := by
  unfold PricesOK
  infer_instance

/-- A buy or sell request, as issued by a caller. -/
inductive TradeOp where
  | buyOp (username symbol : String) (qty pid : Int)
  | sellOp (username symbol : String) (qty pid : Int) (salePrice : Option ℚ)

/-- The state left behind by a buy/sell request (failed requests also
leave their committed partial writes). -/
def applyOp (st : St) : TradeOp → St
  | .buyOp u s q pid => (buy_to_portfolio st u s q pid).2
  | .sellOp u s q pid sp => (sell_from_portfolio st u s q pid sp).2

/-- A whole sequence of buy/sell requests. -/
def applyOps (st : St) (ops : List TradeOp) : St :=
  ops.foldl applyOp st

/-- Decidable equality for service results (used to evaluate the model
on concrete inputs). -/
instance {e a : Type} [DecidableEq e] [DecidableEq a] : DecidableEq (Except e a) :=
  fun x y =>
    match x, y with
    | .ok v, .ok w =>
      if h : v = w then isTrue (by rw [h]) else isFalse (by simp [h])
    | .error v, .error w =>
      if h : v = w then isTrue (by rw [h]) else isFalse (by simp [h])
    | .ok _, .error _ => isFalse (by simp)
    | .error _, .ok _ => isFalse (by simp)

/-- Sample data: a user with a \$1000 balance owning portfolio 1
(spec section 8, Scenario A). -/
def uAlice : UserR := ⟨"alice", .digest "pw", "Alice", "L", 1000, "user"⟩

/-- Portfolio 1 owned by alice. -/
def pfMain : PortfolioR := ⟨1, "Main", "", "", "alice"⟩

/-- Scenario A start state: alice with \$1000, empty portfolio 1. -/
def stScenA : St := ⟨[uAlice], [pfMain], [], [], [], none⟩

/-- A second user who does not own portfolio 1. -/
def uMallory : UserR := ⟨"mallory", .digest "mm", "M", "Y", 50, "user"⟩

/-- State with two users where mallory does not own portfolio 1. -/
def stTwoUsers : St := ⟨[uAlice, uMallory], [pfMain], [], [], [], none⟩

/-- A user with a \$100 balance owning portfolio 2 holding AAPL 10. -/
def uBob : UserR := ⟨"bob", .digest "bb", "B", "B", 100, "user"⟩

/-- Portfolio 2 owned by bob. -/
def pfBob : PortfolioR := ⟨2, "B", "", "", "bob"⟩

/-- Scenario B start state: bob holds 10 AAPL, balance \$100. -/
def stScenB : St := ⟨[uBob], [pfBob], [⟨"AAPL", "Apple Inc.", 175⟩],
  [⟨2, "AAPL", 10⟩], [], none⟩

/-- State like Scenario B but with no security rows at all. -/
def stNoSec : St := ⟨[uBob], [pfBob], [], [], [], none⟩

/-- A user with \$2000 owning portfolio 7 which already holds 3 AAPL. -/
def uDave : UserR := ⟨"dave", .digest "dd", "D", "D", 2000, "user"⟩

/-- Portfolio 7 owned by dave. -/
def pfDave : PortfolioR := ⟨7, "D", "", "", "dave"⟩

/-- Round-trip start state with a pre-existing AAPL holding of 3. -/
def stPreHeld : St := ⟨[uDave], [pfDave], [⟨"AAPL", "Apple Inc.", 175⟩],
  [⟨7, "AAPL", 3⟩], [], none⟩

/-- A user whose stored credential is legacy plaintext, not a digest. -/
def uCarol : UserR := ⟨"carol", .raw "hunter2", "C", "C", 0, "user"⟩

/-- State containing only the legacy-credential user. -/
def stLegacy : St := ⟨[uCarol], [], [], [], [], none⟩

/-- Two admins and one plain user. -/
def admRoot1 : UserR := ⟨"root1", .digest "p1", "R", "1", 0, "admin"⟩

/-- The second admin. -/
def admRoot2 : UserR := ⟨"root2", .digest "p2", "R", "2", 0, "admin"⟩

/-- Delete-user scenario state: admins root1 and root2 plus alice. -/
def stAdmins : St := ⟨[admRoot1, admRoot2, uAlice], [], [], [], [], none⟩

/-- Liquidation scenario user (Scenario E). -/
def uEva : UserR := ⟨"eva", .digest "ee", "E", "V", 0, "user"⟩

/-- Scenario E state: eva owns P1 with AAPL 5 and P2 with GOOGL 3. -/
def stScenE : St := ⟨[uEva],
  [⟨1, "P1", "", "", "eva"⟩, ⟨2, "P2", "", "", "eva"⟩],
  [⟨"AAPL", "Apple Inc.", 175⟩, ⟨"GOOGL", "Alphabet Inc.", 140⟩],
  [⟨1, "AAPL", 5⟩, ⟨2, "GOOGL", 3⟩], [], none⟩

/-- Liquidation state with one untradeable symbol (FAKE) and one good
symbol in the same portfolio. -/
def stLiqBad : St := ⟨[uEva], [⟨1, "P1", "", "", "eva"⟩],
  [⟨"FAKE", "Fake Co", 1⟩, ⟨"AAPL", "Apple Inc.", 175⟩],
  [⟨1, "FAKE", 2⟩, ⟨1, "AAPL", 5⟩], [], none⟩

/-! ### Generic list lemmas -/

lemma mem_updFirst {α} {p : α → Bool} {f : α → α} {l : List α} {x : α}
    (hx : x ∈ updFirst p f l) : x ∈ l ∨ ∃ a, a ∈ l ∧ x = f a := by
  induction l with
  | nil => simp [updFirst] at hx
  | cons y ys ih =>
    by_cases hy : p y = true
    · simp only [updFirst, if_pos hy, List.mem_cons] at hx
      rcases hx with h | h
      · exact Or.inr ⟨y, List.mem_cons_self y ys, h⟩
      · exact Or.inl (List.mem_cons_of_mem _ h)
    · simp only [updFirst, if_neg hy, List.mem_cons] at hx
      rcases hx with h | h
      · exact Or.inl (h ▸ List.mem_cons_self y ys)
      · rcases ih h with h2 | ⟨a, ha, hfa⟩
        · exact Or.inl (List.mem_cons_of_mem _ h2)
        · exact Or.inr ⟨a, List.mem_cons_of_mem _ ha, hfa⟩

lemma find?_updFirst {α} (p : α → Bool) (f : α → α)
    (hf : ∀ a, p a = true → p (f a) = true) (l : List α) :
    List.find? p (updFirst p f l) = (List.find? p l).map f := by
  induction l with
  | nil => rfl
  | cons y ys ih =>
    by_cases hy : p y = true
    · rw [updFirst, if_pos hy, List.find?_cons_of_pos _ (hf y hy),
        List.find?_cons_of_pos _ hy]
      rfl
    · rw [updFirst, if_neg hy, List.find?_cons_of_neg _ hy,
        List.find?_cons_of_neg _ hy, ih]

lemma countP_eraseP_find? {α} (p q : α → Bool) (l : List α) (u : α)
    (h : List.find? q l = some u) :
    List.countP p (List.eraseP q l) + (if p u = true then 1 else 0) =
      List.countP p l := by
  induction l with
  | nil => simp at h
  | cons y ys ih =>
    by_cases hy : q y = true
    · rw [List.find?_cons_of_pos _ hy] at h
      have hu : y = u := by injection h
      subst hu
      rw [List.eraseP_cons_of_pos hy, List.countP_cons]
    · rw [List.find?_cons_of_neg _ hy] at h
      rw [List.eraseP_cons_of_neg hy]
      simp only [List.countP_cons]
      have := ih h
      omega

lemma find?_none_iff_any_false {α} (p : α → Bool) (l : List α) :
    List.find? p l = none ↔ l.any p = false := by
  rw [List.find?_eq_none]
  induction l with
  | nil => simp
  | cons y ys ih => simp_all [List.any_cons]

lemma eraseP_append_singleton {α} (p : α → Bool) (l : List α) (x : α)
    (hl : ∀ a ∈ l, p a = false) (hx : p x = true) :
    List.eraseP p (l ++ [x]) = l := by
  induction l with
  | nil => simp [List.eraseP_cons_of_pos hx]
  | cons y ys ih =>
    have hy : p y = false := hl y (List.mem_cons_self y ys)
    rw [List.cons_append, List.eraseP_cons_of_neg (by simp [hy])]
    rw [ih (fun a ha => hl a (List.mem_cons_of_mem _ ha))]

/-! ### Projection lemmas for the data-layer operations -/

@[simp] lemma update_user_balance_portfolios (st : St) (u : String) (nb : ℚ) :
    (update_user_balance st u nb).portfolios = st.portfolios := rfl

@[simp] lemma update_user_balance_securities (st : St) (u : String) (nb : ℚ) :
    (update_user_balance st u nb).securities = st.securities := rfl

@[simp] lemma update_user_balance_investments (st : St) (u : String) (nb : ℚ) :
    (update_user_balance st u nb).investments = st.investments := rfl

@[simp] lemma update_user_balance_transactions (st : St) (u : String) (nb : ℚ) :
    (update_user_balance st u nb).transactions = st.transactions := rfl

@[simp] lemma update_user_balance_priceOverride (st : St) (u : String) (nb : ℚ) :
    (update_user_balance st u nb).priceOverride = st.priceOverride := rfl

lemma update_user_balance_users (st : St) (u : String) (nb : ℚ) :
    (update_user_balance st u nb).users =
      updFirst (fun x => x.username == (pyStrip u))
        (fun x => { x with balance := nb }) st.users := rfl

@[simp] lemma get_or_create_security_users (st : St) (t n : String) (rp : ℚ) :
    (get_or_create_security st t n rp).users = st.users := by
  unfold get_or_create_security; split <;> rfl

@[simp] lemma get_or_create_security_portfolios (st : St) (t n : String) (rp : ℚ) :
    (get_or_create_security st t n rp).portfolios = st.portfolios := by
  unfold get_or_create_security; split <;> rfl

@[simp] lemma get_or_create_security_investments (st : St) (t n : String) (rp : ℚ) :
    (get_or_create_security st t n rp).investments = st.investments := by
  unfold get_or_create_security; split <;> rfl

@[simp] lemma get_or_create_security_transactions (st : St) (t n : String) (rp : ℚ) :
    (get_or_create_security st t n rp).transactions = st.transactions := by
  unfold get_or_create_security; split <;> rfl

@[simp] lemma get_or_create_security_priceOverride (st : St) (t n : String) (rp : ℚ) :
    (get_or_create_security st t n rp).priceOverride = st.priceOverride := by
  unfold get_or_create_security; split <;> rfl

@[simp] lemma update_investment_users (st : St) (pid : Int) (t : String) (q : Int) :
    (update_investment st pid t q).users = st.users := by
  unfold update_investment
  repeat' split <;> try rfl

@[simp] lemma update_investment_portfolios (st : St) (pid : Int) (t : String) (q : Int) :
    (update_investment st pid t q).portfolios = st.portfolios := by
  unfold update_investment
  repeat' split <;> try rfl

@[simp] lemma update_investment_securities (st : St) (pid : Int) (t : String) (q : Int) :
    (update_investment st pid t q).securities = st.securities := by
  unfold update_investment
  repeat' split <;> try rfl

@[simp] lemma update_investment_transactions (st : St) (pid : Int) (t : String) (q : Int) :
    (update_investment st pid t q).transactions = st.transactions := by
  unfold update_investment
  repeat' split <;> try rfl

@[simp] lemma update_investment_priceOverride (st : St) (pid : Int) (t : String) (q : Int) :
    (update_investment st pid t q).priceOverride = st.priceOverride := by
  unfold update_investment
  repeat' split <;> try rfl

/-! ### Lookup lemmas across the data-layer operations -/

@[simp] lemma query_user_get_or_create_security (st : St) (t n : String) (rp : ℚ)
    (u : String) :
    query_user (get_or_create_security st t n rp) u = query_user st u := by
  unfold query_user get_or_create_security
  split <;> rfl

@[simp] lemma query_user_update_investment (st : St) (pid : Int) (t : String)
    (q : Int) (u : String) :
    query_user (update_investment st pid t q) u = query_user st u := by
  unfold query_user
  rw [update_investment_users]

@[simp] lemma query_portfolio_get_or_create_security (st : St) (t n : String)
    (rp : ℚ) (pid : Int) :
    query_portfolio (get_or_create_security st t n rp) pid = query_portfolio st pid := by
  unfold query_portfolio get_or_create_security
  split <;> rfl

@[simp] lemma query_portfolio_update_user_balance (st : St) (u : String) (nb : ℚ)
    (pid : Int) :
    query_portfolio (update_user_balance st u nb) pid = query_portfolio st pid := rfl

@[simp] lemma query_portfolio_update_investment (st : St) (pid2 : Int) (t : String)
    (q : Int) (pid : Int) :
    query_portfolio (update_investment st pid2 t q) pid = query_portfolio st pid := by
  unfold query_portfolio
  rw [update_investment_portfolios]

@[simp] lemma securityExists_update_user_balance (st : St) (u : String) (nb : ℚ)
    (t : String) :
    securityExists (update_user_balance st u nb) t = securityExists st t := rfl

@[simp] lemma securityExists_update_investment (st : St) (pid : Int) (t2 : String)
    (q : Int) (t : String) :
    securityExists (update_investment st pid t2 q) t = securityExists st t := by
  unfold securityExists
  rw [update_investment_securities]

lemma securityExists_get_or_create_self (st : St) (t n : String) (rp : ℚ) :
    securityExists (get_or_create_security st t n rp) t = true := by
  unfold get_or_create_security
  split
  · assumption
  · unfold securityExists
    simp [List.any_append]

@[simp] lemma invQty_update_user_balance (st : St) (u : String) (nb : ℚ)
    (pid : Int) (t : String) :
    invQty (update_user_balance st u nb) pid t = invQty st pid t := rfl

@[simp] lemma invQty_get_or_create_security (st : St) (t2 n : String) (rp : ℚ)
    (pid : Int) (t : String) :
    invQty (get_or_create_security st t2 n rp) pid t = invQty st pid t := by
  unfold invQty
  rw [get_or_create_security_investments]

lemma currentHoldingsOf_get_investment (st : St) (pid : Int) (t : String)
    (h : securityExists st t = true) :
    currentHoldingsOf (get_investment st pid t) = invQty st pid t := by
  unfold currentHoldingsOf get_investment invQty
  rw [if_pos h]

lemma query_user_update_user_balance_self (st : St) (u : String) (nb : ℚ) :
    query_user (update_user_balance st u nb) u =
      (query_user st u).map (fun x => { x with balance := nb }) := by
  unfold query_user
  rw [update_user_balance_users]
  exact find?_updFirst (fun x => x.username == (pyStrip u))
    (fun x => { x with balance := nb }) (fun a ha => ha) st.users

lemma invQty_update_investment_self (st : St) (pid : Int) (t : String) (q : Int)
    (hsec : securityExists st t = true) (hq : 0 < q) :
    invQty (update_investment st pid t q) pid t = q := by
  unfold update_investment invQty
  rw [if_pos hsec]
  cases hf : st.investments.find?
      (fun r => r.portfolioId == pid && r.ticker == (pyUpper t)) with
  | some r =>
    rw [if_neg (by omega)]
    simp only
    rw [find?_updFirst (fun r => r.portfolioId == pid && r.ticker == (pyUpper t))
      (fun r => { r with quantity := q }) (fun a ha => ha) st.investments, hf]
    rfl
  | none =>
    rw [if_pos hq]
    simp only
    rw [List.find?_append, hf]
    simp

lemma record_transaction_ok_eq (st : St) (uname sym tstr : String)
    (pid qty : Int) (price : ℚ)
    (hu : (pyStrip uname) = uname) (hs : (pyUpper sym) = sym)
    (hq : (query_user st uname).isSome = true)
    (hp : (query_portfolio st pid).isSome = true)
    (hsec : securityExists st sym = true) :
    record_transaction st uname pid sym tstr qty price =
      .ok { st with transactions := st.transactions ++
            [⟨uname, pid, sym,
              if (pyUpper tstr) == "BUY" then TxnType.buyT else TxnType.sellT,
              qty, price⟩] } := by
  obtain ⟨u0, hu0⟩ := Option.isSome_iff_exists.mp hq
  obtain ⟨p0, hp0⟩ := Option.isSome_iff_exists.mp hp
  unfold record_transaction
  simp [hu0, hp0, hsec, hu, hs]

lemma buy_ok_eq (st : St) (uname sym : String) (qty pid : Int)
    (user : UserR) (pf : PortfolioR) (price : ℚ)
    (hu : (pyStrip uname) = uname) (hune : uname ≠ "")
    (hs1 : (pyStrip sym) = sym) (hs2 : (pyUpper sym) = sym) (hsne : sym ≠ "")
    (hq : 0 < qty)
    (hfind : query_user st uname = some user)
    (hpf : query_portfolio st pid = some pf)
    (hown : pf.owner = uname)
    (hpr : lookupPrice (get_price_map st) sym = some price)
    (hbal : price * (qty : ℚ) ≤ user.balance) :
    buy_to_portfolio st uname sym qty pid =
      (.ok (), buyFinal st uname sym qty pid user price) := by
  have hq2 : ¬ (qty ≤ 0) := by omega
  have hbal2 : ¬ (user.balance < price * (qty : ℚ)) := not_lt.mpr hbal
  have hsec1 : securityExists
      (update_user_balance (get_or_create_security st sym (get_security_name sym) price)
        uname (user.balance - price * (qty : ℚ))) sym = true := by
    rw [securityExists_update_user_balance]
    exact securityExists_get_or_create_self st sym (get_security_name sym) price
  have hcur : currentHoldingsOf
      (get_investment
        (update_user_balance (get_or_create_security st sym (get_security_name sym) price)
          uname (user.balance - price * (qty : ℚ))) pid sym) = invQty st pid sym := by
    rw [currentHoldingsOf_get_investment _ _ _ hsec1]
    rw [invQty_update_user_balance, invQty_get_or_create_security]
  have huser3 : query_user
      (update_investment
        (update_user_balance (get_or_create_security st sym (get_security_name sym) price)
          uname (user.balance - price * (qty : ℚ))) pid sym (invQty st pid sym + qty))
      uname = some { user with balance := user.balance - price * (qty : ℚ) } := by
    rw [query_user_update_investment, query_user_update_user_balance_self,
      query_user_get_or_create_security, hfind]
    rfl
  have hport3 : query_portfolio
      (update_investment
        (update_user_balance (get_or_create_security st sym (get_security_name sym) price)
          uname (user.balance - price * (qty : ℚ))) pid sym (invQty st pid sym + qty))
      pid = some pf := by
    rw [query_portfolio_update_investment, query_portfolio_update_user_balance,
      query_portfolio_get_or_create_security, hpf]
  have hsec3 : securityExists
      (update_investment
        (update_user_balance (get_or_create_security st sym (get_security_name sym) price)
          uname (user.balance - price * (qty : ℚ))) pid sym (invQty st pid sym + qty))
      sym = true := by
    rw [securityExists_update_investment]
    exact hsec1
  have hrec := record_transaction_ok_eq _ uname sym "BUY" pid qty price hu hs2
    (by rw [huser3]; rfl) (by rw [hport3]; rfl) hsec3
  unfold buy_to_portfolio buyFinal
  simp only [hu, hs1, hs2, if_neg hune, if_neg hsne, if_neg hq2, hfind, hpf, hown,
    ne_eq, not_true_eq_false, if_false, ite_false, hpr, if_neg hbal2, hcur, hrec]
  have hBUY : pyUpper "BUY" = "BUY" := by decide
  simp [hBUY]

lemma sell_ok_aux (st : St) (uname sym : String) (qty pid : Int)
    (salePrice : Option ℚ) (sp : ℚ) (user : UserR) (pf : PortfolioR) (price : ℚ)
    (hu : pyStrip uname = uname) (hune : uname ≠ "")
    (hs1 : pyStrip sym = sym) (hs2 : pyUpper sym = sym) (hsne : sym ≠ "")
    (hq : 0 < qty)
    (hneg : negOverride salePrice = false)
    (hfind : query_user st uname = some user)
    (hpf : query_portfolio st pid = some pf)
    (hown : pf.owner = uname)
    (hpr : lookupPrice (get_price_map st) sym = some price)
    (hsh : qty ≤ invQty st pid sym)
    (hsp : salePrice = none ∧ sp = price ∨ salePrice = some sp) :
    sell_from_portfolio st uname sym qty pid salePrice =
      (.ok (), sellFinal st uname sym qty pid user sp price) := by
  have hq2 : ¬ (qty ≤ 0) := by omega
  have hsec1 : securityExists
      (get_or_create_security st sym (get_security_name sym) price) sym = true :=
    securityExists_get_or_create_self st sym (get_security_name sym) price
  have hcur : currentHoldingsOf
      (get_investment (get_or_create_security st sym (get_security_name sym) price)
        pid sym) = invQty st pid sym := by
    rw [currentHoldingsOf_get_investment _ _ _ hsec1, invQty_get_or_create_security]
  have hsh2 : ¬ (invQty st pid sym < qty) := not_lt.mpr hsh
  have huser3 : query_user
      (update_investment
        (update_user_balance (get_or_create_security st sym (get_security_name sym) price)
          uname (user.balance + sp * (qty : ℚ))) pid sym (invQty st pid sym - qty))
      uname = some { user with balance := user.balance + sp * (qty : ℚ) } := by
    rw [query_user_update_investment, query_user_update_user_balance_self,
      query_user_get_or_create_security, hfind]
    rfl
  have hport3 : query_portfolio
      (update_investment
        (update_user_balance (get_or_create_security st sym (get_security_name sym) price)
          uname (user.balance + sp * (qty : ℚ))) pid sym (invQty st pid sym - qty))
      pid = some pf := by
    rw [query_portfolio_update_investment, query_portfolio_update_user_balance,
      query_portfolio_get_or_create_security, hpf]
  have hsec3 : securityExists
      (update_investment
        (update_user_balance (get_or_create_security st sym (get_security_name sym) price)
          uname (user.balance + sp * (qty : ℚ))) pid sym (invQty st pid sym - qty))
      sym = true := by
    rw [securityExists_update_investment, securityExists_update_user_balance]
    exact hsec1
  have hrec := record_transaction_ok_eq _ uname sym "SELL" pid qty sp hu hs2
    (by rw [huser3]; rfl) (by rw [hport3]; rfl) hsec3
  have hSELL : (pyUpper "SELL" == "BUY") = false := by decide
  rcases hsp with ⟨h1, h2⟩ | h1
  · subst h1
    subst h2
    unfold sell_from_portfolio sellFinal
    simp only [hu, hs1, hs2, if_neg hune, if_neg hsne, if_neg hq2, negOverride,
      Bool.false_eq_true, if_false, hfind, hpf, hown, ne_eq, not_true_eq_false,
      ite_false, hpr, hcur, if_neg hsh2, hrec, hSELL]
  · subst h1
    have hv : ¬ (sp < 0) := by
      simpa [negOverride, decide_eq_false_iff_not] using hneg
    unfold sell_from_portfolio sellFinal
    simp only [hu, hs1, hs2, if_neg hune, if_neg hsne, if_neg hq2, negOverride,
      decide_eq_true_eq, if_neg hv, hfind, hpf, hown, ne_eq, not_true_eq_false,
      ite_false, hpr, hcur, if_neg hsh2, hrec, hSELL]
    simp

lemma sell_ok_eq (st : St) (uname sym : String) (qty pid : Int)
    (salePrice : Option ℚ) (user : UserR) (pf : PortfolioR) (price : ℚ)
    (hu : pyStrip uname = uname) (hune : uname ≠ "")
    (hs1 : pyStrip sym = sym) (hs2 : pyUpper sym = sym) (hsne : sym ≠ "")
    (hq : 0 < qty)
    (hneg : negOverride salePrice = false)
    (hfind : query_user st uname = some user)
    (hpf : query_portfolio st pid = some pf)
    (hown : pf.owner = uname)
    (hpr : lookupPrice (get_price_map st) sym = some price)
    (hsh : qty ≤ invQty st pid sym) :
    sell_from_portfolio st uname sym qty pid salePrice =
      (.ok (), sellFinal st uname sym qty pid user (salePrice.getD price) price) := by
  cases hsp : salePrice with
  | none =>
    exact sell_ok_aux st uname sym qty pid none price user pf price hu hune hs1 hs2
      hsne hq (by rw [hsp] at hneg; exact hneg) hfind hpf hown hpr hsh
      (Or.inl ⟨rfl, rfl⟩)
  | some v =>
    exact sell_ok_aux st uname sym qty pid (some v) v user pf price hu hune hs1 hs2
      hsne hq (by rw [hsp] at hneg; exact hneg) hfind hpf hown hpr hsh (Or.inr rfl)

lemma buy_auth_eq (st : St) (uname sym : String) (qty pid : Int)
    (user : UserR) (pf : PortfolioR)
    (hu : pyStrip uname = uname) (hune : uname ≠ "")
    (hsne : pyStrip sym ≠ "") (hq : 0 < qty)
    (hfind : query_user st uname = some user)
    (hpf : query_portfolio st pid = some pf)
    (hown : pf.owner ≠ uname) :
    buy_to_portfolio st uname sym qty pid = (.error .authorization, st) := by
  have hq2 : ¬ (qty ≤ 0) := by omega
  unfold buy_to_portfolio
  simp only [hu, if_neg hune, if_neg hsne, if_neg hq2, hfind, hpf, if_pos hown]

lemma sell_auth_eq (st : St) (uname sym : String) (qty pid : Int)
    (salePrice : Option ℚ) (user : UserR) (pf : PortfolioR)
    (hu : pyStrip uname = uname) (hune : uname ≠ "")
    (hsne : pyStrip sym ≠ "") (hq : 0 < qty)
    (hneg : negOverride salePrice = false)
    (hfind : query_user st uname = some user)
    (hpf : query_portfolio st pid = some pf)
    (hown : pf.owner ≠ uname) :
    sell_from_portfolio st uname sym qty pid salePrice =
      (.error .authorization, st) := by
  have hq2 : ¬ (qty ≤ 0) := by omega
  unfold sell_from_portfolio
  simp only [hu, if_neg hune, if_neg hsne, if_neg hq2, hneg, Bool.false_eq_true,
    if_false, hfind, hpf, if_pos hown]

lemma buy_insufficientFunds_eq (st : St) (uname sym : String) (qty pid : Int)
    (user : UserR) (pf : PortfolioR) (price : ℚ)
    (hu : pyStrip uname = uname) (hune : uname ≠ "")
    (hs1 : pyStrip sym = sym) (hs2 : pyUpper sym = sym) (hsne : sym ≠ "")
    (hq : 0 < qty)
    (hfind : query_user st uname = some user)
    (hpf : query_portfolio st pid = some pf)
    (hown : pf.owner = uname)
    (hpr : lookupPrice (get_price_map st) sym = some price)
    (hbal : user.balance < price * (qty : ℚ)) :
    buy_to_portfolio st uname sym qty pid =
      (.error .insufficientFunds,
        get_or_create_security st sym (get_security_name sym) price) := by
  have hq2 : ¬ (qty ≤ 0) := by omega
  unfold buy_to_portfolio
  simp only [hu, hs1, hs2, if_neg hune, if_neg hsne, if_neg hq2, hfind, hpf, hown,
    ne_eq, not_true_eq_false, if_false, ite_false, hpr, if_pos hbal]

lemma sell_insufficientShares_eq (st : St) (uname sym : String) (qty pid : Int)
    (salePrice : Option ℚ) (user : UserR) (pf : PortfolioR) (price : ℚ)
    (hu : pyStrip uname = uname) (hune : uname ≠ "")
    (hs1 : pyStrip sym = sym) (hs2 : pyUpper sym = sym) (hsne : sym ≠ "")
    (hq : 0 < qty)
    (hneg : negOverride salePrice = false)
    (hfind : query_user st uname = some user)
    (hpf : query_portfolio st pid = some pf)
    (hown : pf.owner = uname)
    (hpr : lookupPrice (get_price_map st) sym = some price)
    (hsh : invQty st pid sym < qty) :
    sell_from_portfolio st uname sym qty pid salePrice =
      (.error .insufficientShares,
        get_or_create_security st sym (get_security_name sym) price) := by
  have hq2 : ¬ (qty ≤ 0) := by omega
  have hsec1 : securityExists
      (get_or_create_security st sym (get_security_name sym) price) sym = true :=
    securityExists_get_or_create_self st sym (get_security_name sym) price
  have hcur : currentHoldingsOf
      (get_investment (get_or_create_security st sym (get_security_name sym) price)
        pid sym) = invQty st pid sym := by
    rw [currentHoldingsOf_get_investment _ _ _ hsec1, invQty_get_or_create_security]
  unfold sell_from_portfolio
  simp only [hu, hs1, hs2, if_neg hune, if_neg hsne, if_neg hq2, hneg,
    Bool.false_eq_true, if_false, hfind, hpf, hown, ne_eq, not_true_eq_false,
    ite_false, hpr, hcur, if_pos hsh]

lemma sell_negOverride_eq (st : St) (uname sym : String) (qty pid : Int) (v : ℚ)
    (hune : pyStrip uname ≠ "") (hsne : pyStrip sym ≠ "") (hq : 0 < qty)
    (hv : v < 0) :
    sell_from_portfolio st uname sym qty pid (some v) =
      (.error .validation, st) := by
  have hq2 : ¬ (qty ≤ 0) := by omega
  have hneg : negOverride (some v) = true := by
    simp [negOverride, hv]
  unfold sell_from_portfolio
  simp only [if_neg hune, if_neg hsne, if_neg hq2, hneg, if_true]

/-! ### Invariant preservation -/

lemma lookupPrice_nonneg (m : List (String × ℚ)) (sym : String) (p : ℚ)
    (hm : ∀ kv ∈ m, 0 ≤ kv.2) (h : lookupPrice m sym = some p) : 0 ≤ p := by
  unfold lookupPrice at h
  cases hf : m.find? (fun kv => kv.1 == sym) with
  | none => rw [hf] at h; simp at h
  | some kv =>
    rw [hf] at h
    simp at h
    rcases h with rfl
    exact hm kv (List.mem_of_find?_eq_some hf)

lemma InvOK_update_user_balance (st : St) (u : String) (nb : ℚ)
    (h : InvOK st) (hnb : 0 ≤ nb) : InvOK (update_user_balance st u nb) := by
  obtain ⟨hi, hu⟩ := h
  constructor
  · rw [update_user_balance_investments]; exact hi
  · rw [update_user_balance_users]
    intro x hx
    rcases mem_updFirst hx with hmem | ⟨a, _, rfl⟩
    · exact hu x hmem
    · exact hnb

lemma InvOK_get_or_create_security (st : St) (t n : String) (rp : ℚ)
    (h : InvOK st) : InvOK (get_or_create_security st t n rp) := by
  obtain ⟨hi, hu⟩ := h
  constructor
  · rw [get_or_create_security_investments]; exact hi
  · rw [get_or_create_security_users]; exact hu

lemma InvOK_update_investment (st : St) (pid : Int) (t : String) (q : Int)
    (h : InvOK st) : InvOK (update_investment st pid t q) := by
  obtain ⟨hi, hu⟩ := h
  unfold update_investment
  split
  · split
    · split
      · constructor
        · intro r hr
          exact hi r (List.mem_of_mem_eraseP hr)
        · exact hu
      · constructor
        · intro r hr
          simp only at hr
          rcases mem_updFirst hr with hmem | ⟨a, _, rfl⟩
          · exact hi r hmem
          · simp only
            omega
        · exact hu
    · split
      · constructor
        · intro r hr
          simp only at hr
          rcases List.mem_append.mp hr with hmem | hmem
          · exact hi r hmem
          · rw [List.mem_singleton.mp hmem]
            simp only
            omega
        · exact hu
      · exact ⟨hi, hu⟩
  · exact ⟨hi, hu⟩

lemma record_transaction_ok_fields (st st2 : St) (u : String) (pid : Int)
    (t tt : String) (q : Int) (p : ℚ)
    (h : record_transaction st u pid t tt q p = .ok st2) :
    st2.users = st.users ∧ st2.investments = st.investments ∧
      st2.priceOverride = st.priceOverride := by
  unfold record_transaction at h
  split at h
  · cases h
  · split at h
    · cases h
    · split at h
      · injection h with h2
        rw [← h2]
        exact ⟨rfl, rfl, rfl⟩
      · cases h

lemma InvOK_buy (st : St) (u s : String) (q pid : Int) (h : InvOK st) :
    InvOK (buy_to_portfolio st u s q pid).2 := by
  unfold buy_to_portfolio
  dsimp only
  split
  next => exact h
  next husr =>
  split
  next => exact h
  next hsym =>
  split
  next => exact h
  next hq =>
  split
  next => exact h
  next user hfind =>
  split
  next => exact h
  next pf hpf =>
  split
  next => exact h
  next hown =>
  split
  next => exact h
  next price hpr =>
  split
  next hbal => exact InvOK_get_or_create_security _ _ _ _ h
  next hbal =>
  split
  next st4 heq =>
    obtain ⟨hus, hinv, _⟩ := record_transaction_ok_fields _ _ _ _ _ _ _ _ heq
    refine ⟨?_, ?_⟩
    · rw [hinv]
      exact (InvOK_update_investment _ _ _ _
        (InvOK_update_user_balance _ _ _
          (InvOK_get_or_create_security _ _ _ _ h)
          (sub_nonneg.mpr (not_lt.mp hbal)))).1
    · rw [hus]
      exact (InvOK_update_investment _ _ _ _
        (InvOK_update_user_balance _ _ _
          (InvOK_get_or_create_security _ _ _ _ h)
          (sub_nonneg.mpr (not_lt.mp hbal)))).2
  next e heq =>
    exact InvOK_update_investment _ _ _ _
      (InvOK_update_user_balance _ _ _
        (InvOK_get_or_create_security _ _ _ _ h)
        (sub_nonneg.mpr (not_lt.mp hbal)))

lemma InvOK_sell_none (st : St) (u s : String) (q pid : Int)
    (h : InvOK st) (hp : PricesOK st) :
    InvOK (sell_from_portfolio st u s q pid none).2 := by
  unfold sell_from_portfolio
  dsimp only [negOverride]
  simp only [Bool.false_eq_true, if_false]
  split
  next => exact h
  next husr =>
  split
  next => exact h
  next hsym =>
  split
  next => exact h
  next hqty =>
  split
  next => exact h
  next user hfind =>
  split
  next => exact h
  next pf hpf =>
  split
  next => exact h
  next hown =>
  split
  next => exact h
  next price hpr =>
  split
  next hshort => exact InvOK_get_or_create_security _ _ _ _ h
  next hshort =>
  have hmem : user ∈ st.users := by
    unfold query_user at hfind
    exact List.mem_of_find?_eq_some hfind
  have hq0 : (0 : ℚ) ≤ (q : ℚ) := by
    have hq1 : (0 : Int) ≤ q := le_of_lt (lt_of_not_le hqty)
    exact_mod_cast hq1
  have hnb : 0 ≤ user.balance + price * (q : ℚ) :=
    add_nonneg (h.2 user hmem)
      (mul_nonneg (lookupPrice_nonneg _ _ _ hp hpr) hq0)
  split
  next st4 heq =>
    obtain ⟨hus, hinv, _⟩ := record_transaction_ok_fields _ _ _ _ _ _ _ _ heq
    refine ⟨?_, ?_⟩
    · rw [hinv]
      exact (InvOK_update_investment _ _ _ _
        (InvOK_update_user_balance _ _ _
          (InvOK_get_or_create_security _ _ _ _ h) hnb)).1
    · rw [hus]
      exact (InvOK_update_investment _ _ _ _
        (InvOK_update_user_balance _ _ _
          (InvOK_get_or_create_security _ _ _ _ h) hnb)).2
  next e heq =>
    exact InvOK_update_investment _ _ _ _
      (InvOK_update_user_balance _ _ _
        (InvOK_get_or_create_security _ _ _ _ h) hnb)

lemma InvOK_sell_some (st : St) (u s : String) (q pid : Int) (v : ℚ)
    (h : InvOK st) (_hp : PricesOK st) :
    InvOK (sell_from_portfolio st u s q pid (some v)).2 := by
  unfold sell_from_portfolio
  dsimp only [negOverride]
  split
  next => exact h
  next husr =>
  split
  next => exact h
  next hsym =>
  split
  next => exact h
  next hqty =>
  split
  next => exact h
  next hnegov =>
  split
  next => exact h
  next user hfind =>
  split
  next => exact h
  next pf hpf =>
  split
  next => exact h
  next hown =>
  split
  next => exact h
  next price hpr =>
  split
  next hshort => exact InvOK_get_or_create_security _ _ _ _ h
  next hshort =>
  have hmem : user ∈ st.users := by
    unfold query_user at hfind
    exact List.mem_of_find?_eq_some hfind
  have hq0 : (0 : ℚ) ≤ (q : ℚ) := by
    have hq1 : (0 : Int) ≤ q := le_of_lt (lt_of_not_le hqty)
    exact_mod_cast hq1
  have hv : (0 : ℚ) ≤ v := by
    simp only [decide_eq_true_eq] at hnegov
    exact not_lt.mp hnegov
  have hnb : 0 ≤ user.balance + v * (q : ℚ) :=
    add_nonneg (h.2 user hmem) (mul_nonneg hv hq0)
  split
  next st4 heq =>
    obtain ⟨hus, hinv, _⟩ := record_transaction_ok_fields _ _ _ _ _ _ _ _ heq
    refine ⟨?_, ?_⟩
    · rw [hinv]
      exact (InvOK_update_investment _ _ _ _
        (InvOK_update_user_balance _ _ _
          (InvOK_get_or_create_security _ _ _ _ h) hnb)).1
    · rw [hus]
      exact (InvOK_update_investment _ _ _ _
        (InvOK_update_user_balance _ _ _
          (InvOK_get_or_create_security _ _ _ _ h) hnb)).2
  next e heq =>
    exact InvOK_update_investment _ _ _ _
      (InvOK_update_user_balance _ _ _
        (InvOK_get_or_create_security _ _ _ _ h) hnb)

lemma InvOK_sell (st : St) (u s : String) (q pid : Int) (salePrice : Option ℚ)
    (h : InvOK st) (hp : PricesOK st) :
    InvOK (sell_from_portfolio st u s q pid salePrice).2 := by
  cases salePrice with
  | none => exact InvOK_sell_none st u s q pid h hp
  | some v => exact InvOK_sell_some st u s q pid v h hp


lemma buy_priceOverride (st : St) (u s : String) (q pid : Int) :
    (buy_to_portfolio st u s q pid).2.priceOverride = st.priceOverride := by
  unfold buy_to_portfolio
  dsimp only
  repeat' split
  all_goals try rfl
  all_goals try simp
  next st4 heq =>
    obtain ⟨_, _, hpo⟩ := record_transaction_ok_fields _ _ _ _ _ _ _ _ heq
    rw [hpo]
    simp

lemma sell_priceOverride (st : St) (u s : String) (q pid : Int)
    (salePrice : Option ℚ) :
    (sell_from_portfolio st u s q pid salePrice).2.priceOverride =
      st.priceOverride := by
  unfold sell_from_portfolio
  dsimp only
  repeat' split
  all_goals try rfl
  all_goals try simp
  next st4 heq =>
    obtain ⟨_, _, hpo⟩ := record_transaction_ok_fields _ _ _ _ _ _ _ _ heq
    rw [hpo]
    simp

lemma PricesOK_of_priceOverride_eq (st st2 : St)
    (h : st2.priceOverride = st.priceOverride) (hp : PricesOK st) :
    PricesOK st2 := by
  unfold PricesOK get_price_map
  unfold PricesOK get_price_map at hp
  rw [h]
  exact hp

lemma InvOK_applyOp (st : St) (op : TradeOp) (h : InvOK st) (hp : PricesOK st) :
    InvOK (applyOp st op) ∧ PricesOK (applyOp st op) := by
  cases op with
  | buyOp u s q pid =>
    exact ⟨InvOK_buy st u s q pid h,
      PricesOK_of_priceOverride_eq st _ (buy_priceOverride st u s q pid) hp⟩
  | sellOp u s q pid sp =>
    exact ⟨InvOK_sell st u s q pid sp h hp,
      PricesOK_of_priceOverride_eq st _ (sell_priceOverride st u s q pid sp) hp⟩

lemma InvOK_applyOps (st : St) (ops : List TradeOp) (h : InvOK st)
    (hp : PricesOK st) : InvOK (applyOps st ops) := by
  induction ops generalizing st with
  | nil => exact h
  | cons op rest ih =>
    obtain ⟨h2, hp2⟩ := InvOK_applyOp st op h hp
    exact ih (applyOp st op) h2 hp2

/-! ### Final-state projections for successful trades -/

lemma query_user_congr (st2 st : St) (h : st2.users = st.users) (u : String) :
    query_user st2 u = query_user st u := by
  unfold query_user
  rw [h]

lemma query_portfolio_congr (st2 st : St) (h : st2.portfolios = st.portfolios)
    (pid : Int) : query_portfolio st2 pid = query_portfolio st pid := by
  unfold query_portfolio
  rw [h]

lemma get_price_map_congr (st2 st : St)
    (h : st2.priceOverride = st.priceOverride) :
    get_price_map st2 = get_price_map st := by
  unfold get_price_map
  rw [h]

lemma buyFinal_users_eq (st : St) (uname sym : String) (qty pid : Int)
    (user : UserR) (price : ℚ) :
    (buyFinal st uname sym qty pid user price).users =
      updFirst (fun x => x.username == pyStrip uname)
        (fun x => { x with balance := user.balance - price * (qty : ℚ) }) st.users := by
  unfold buyFinal
  dsimp only
  rw [update_investment_users, update_user_balance_users,
    get_or_create_security_users]

lemma buyFinal_portfolios (st : St) (uname sym : String) (qty pid : Int)
    (user : UserR) (price : ℚ) :
    (buyFinal st uname sym qty pid user price).portfolios = st.portfolios := by
  unfold buyFinal
  dsimp only
  rw [update_investment_portfolios, update_user_balance_portfolios,
    get_or_create_security_portfolios]

lemma buyFinal_securities (st : St) (uname sym : String) (qty pid : Int)
    (user : UserR) (price : ℚ) :
    (buyFinal st uname sym qty pid user price).securities =
      (get_or_create_security st sym (get_security_name sym) price).securities := by
  unfold buyFinal
  dsimp only
  rw [update_investment_securities, update_user_balance_securities]

lemma buyFinal_priceOverride (st : St) (uname sym : String) (qty pid : Int)
    (user : UserR) (price : ℚ) :
    (buyFinal st uname sym qty pid user price).priceOverride =
      st.priceOverride := by
  unfold buyFinal
  dsimp only
  rw [update_investment_priceOverride, update_user_balance_priceOverride,
    get_or_create_security_priceOverride]

lemma buyFinal_transactions (st : St) (uname sym : String) (qty pid : Int)
    (user : UserR) (price : ℚ) :
    (buyFinal st uname sym qty pid user price).transactions =
      st.transactions ++ [⟨uname, pid, sym, .buyT, qty, price⟩] := by
  unfold buyFinal
  dsimp only
  rw [update_investment_transactions, update_user_balance_transactions,
    get_or_create_security_transactions]

lemma buyFinal_investments (st : St) (uname sym : String) (qty pid : Int)
    (user : UserR) (price : ℚ) :
    (buyFinal st uname sym qty pid user price).investments =
      (update_investment
        (update_user_balance (get_or_create_security st sym (get_security_name sym) price)
          uname (user.balance - price * (qty : ℚ)))
        pid sym (invQty st pid sym + qty)).investments := by
  unfold buyFinal
  dsimp only

lemma query_user_buyFinal (st : St) (uname sym : String) (qty pid : Int)
    (user : UserR) (price : ℚ) :
    query_user (buyFinal st uname sym qty pid user price) uname =
      (query_user st uname).map
        (fun x => { x with balance := user.balance - price * (qty : ℚ) }) := by
  unfold query_user
  rw [buyFinal_users_eq]
  exact find?_updFirst (fun x => x.username == pyStrip uname)
    (fun x => { x with balance := user.balance - price * (qty : ℚ) })
    (fun a ha => ha) st.users

lemma securityExists_buyFinal (st : St) (uname sym : String) (qty pid : Int)
    (user : UserR) (price : ℚ) :
    securityExists (buyFinal st uname sym qty pid user price) sym = true := by
  unfold securityExists
  rw [buyFinal_securities]
  exact securityExists_get_or_create_self st sym (get_security_name sym) price

lemma invQty_buyFinal (st : St) (uname sym : String) (qty pid : Int)
    (user : UserR) (price : ℚ)
    (hq : 0 < qty) (hnn : 0 ≤ invQty st pid sym) :
    invQty (buyFinal st uname sym qty pid user price) pid sym =
      invQty st pid sym + qty := by
  have h1 : (buyFinal st uname sym qty pid user price).investments =
      (update_investment
        (update_user_balance (get_or_create_security st sym (get_security_name sym) price)
          uname (user.balance - price * (qty : ℚ)))
        pid sym (invQty st pid sym + qty)).investments :=
    buyFinal_investments st uname sym qty pid user price
  have hsec : securityExists
      (update_user_balance (get_or_create_security st sym (get_security_name sym) price)
        uname (user.balance - price * (qty : ℚ))) sym = true := by
    rw [securityExists_update_user_balance]
    exact securityExists_get_or_create_self st sym (get_security_name sym) price
  have h2 := invQty_update_investment_self
    (update_user_balance (get_or_create_security st sym (get_security_name sym) price)
      uname (user.balance - price * (qty : ℚ)))
    pid sym (invQty st pid sym + qty) hsec (by omega)
  unfold invQty at h2 ⊢
  rw [h1]
  exact h2

lemma sellFinal_users_eq (st : St) (uname sym : String) (qty pid : Int)
    (user : UserR) (sp price : ℚ) :
    (sellFinal st uname sym qty pid user sp price).users =
      updFirst (fun x => x.username == pyStrip uname)
        (fun x => { x with balance := user.balance + sp * (qty : ℚ) }) st.users := by
  unfold sellFinal
  dsimp only
  rw [update_investment_users, update_user_balance_users,
    get_or_create_security_users]

lemma sellFinal_portfolios (st : St) (uname sym : String) (qty pid : Int)
    (user : UserR) (sp price : ℚ) :
    (sellFinal st uname sym qty pid user sp price).portfolios = st.portfolios := by
  unfold sellFinal
  dsimp only
  rw [update_investment_portfolios, update_user_balance_portfolios,
    get_or_create_security_portfolios]

lemma sellFinal_priceOverride (st : St) (uname sym : String) (qty pid : Int)
    (user : UserR) (sp price : ℚ) :
    (sellFinal st uname sym qty pid user sp price).priceOverride =
      st.priceOverride := by
  unfold sellFinal
  dsimp only
  rw [update_investment_priceOverride, update_user_balance_priceOverride,
    get_or_create_security_priceOverride]

lemma sellFinal_transactions (st : St) (uname sym : String) (qty pid : Int)
    (user : UserR) (sp price : ℚ) :
    (sellFinal st uname sym qty pid user sp price).transactions =
      st.transactions ++ [⟨uname, pid, sym, .sellT, qty, sp⟩] := by
  unfold sellFinal
  dsimp only
  rw [update_investment_transactions, update_user_balance_transactions,
    get_or_create_security_transactions]

lemma sellFinal_investments (st : St) (uname sym : String) (qty pid : Int)
    (user : UserR) (sp price : ℚ) :
    (sellFinal st uname sym qty pid user sp price).investments =
      (update_investment
        (update_user_balance (get_or_create_security st sym (get_security_name sym) price)
          uname (user.balance + sp * (qty : ℚ)))
        pid sym (invQty st pid sym - qty)).investments := by
  unfold sellFinal
  dsimp only

lemma query_user_sellFinal (st : St) (uname sym : String) (qty pid : Int)
    (user : UserR) (sp price : ℚ) :
    query_user (sellFinal st uname sym qty pid user sp price) uname =
      (query_user st uname).map
        (fun x => { x with balance := user.balance + sp * (qty : ℚ) }) := by
  unfold query_user
  rw [sellFinal_users_eq]
  exact find?_updFirst (fun x => x.username == pyStrip uname)
    (fun x => { x with balance := user.balance + sp * (qty : ℚ) })
    (fun a ha => ha) st.users

lemma update_investment_delete (st : St) (pid : Int) (t : String) (q : Int)
    (hq : q ≤ 0) (hsec : securityExists st t = true)
    (hrow : (st.investments.find?
      (fun r => r.portfolioId == pid && r.ticker == (pyUpper t))).isSome = true) :
    (update_investment st pid t q).investments =
      st.investments.eraseP
        (fun r => r.portfolioId == pid && r.ticker == (pyUpper t)) := by
  unfold update_investment
  rw [if_pos hsec]
  obtain ⟨r, hr⟩ := Option.isSome_iff_exists.mp hrow
  rw [hr]
  dsimp only
  rw [if_pos hq]

lemma buyFinal_investments_new (st : St) (uname sym : String) (qty pid : Int)
    (user : UserR) (price : ℚ) (hq : 0 < qty)
    (hno : st.investments.find?
      (fun r => r.portfolioId == pid && r.ticker == (pyUpper sym)) = none) :
    (buyFinal st uname sym qty pid user price).investments =
      st.investments ++ [⟨pid, pyUpper sym, qty⟩] := by
  have hiq : invQty st pid sym = 0 := by
    unfold invQty
    rw [hno]
  have hsec : securityExists
      (update_user_balance (get_or_create_security st sym (get_security_name sym) price)
        uname (user.balance - price * (qty : ℚ))) sym = true := by
    rw [securityExists_update_user_balance]
    exact securityExists_get_or_create_self st sym (get_security_name sym) price
  rw [buyFinal_investments, hiq, zero_add]
  unfold update_investment
  rw [if_pos hsec, update_user_balance_investments,
    get_or_create_security_investments, hno]
  dsimp only
  rw [if_pos hq]

/-! ### Liquidation result-map lemmas -/

lemma hasKey_dictSet_self {β : Type} (m : List (String × β)) (k : String) (v : β) :
    hasKey (dictSet m k v) k = true := by
  unfold hasKey dictSet
  split
  next hany =>
    rw [List.any_map, List.any_eq_true]
    rw [List.any_eq_true] at hany
    obtain ⟨kv, hmem, hkv⟩ := hany
    refine ⟨kv, hmem, ?_⟩
    simp only [Function.comp]
    rw [if_pos hkv]
    simp
  next hany =>
    rw [List.any_append]
    simp

lemma hasKey_dictSet_mono {β : Type} (m : List (String × β)) (k2 k : String)
    (v : β) (h : hasKey m k2 = true) : hasKey (dictSet m k v) k2 = true := by
  unfold hasKey dictSet
  unfold hasKey at h
  split
  next hany =>
    rw [List.any_map, List.any_eq_true]
    rw [List.any_eq_true] at h
    obtain ⟨kv, hmem, hkv⟩ := h
    refine ⟨kv, hmem, ?_⟩
    simp only [Function.comp]
    by_cases hk : (kv.1 == k) = true
    · rw [if_pos hk]
      have h1 : kv.1 = k := by simpa using hk
      have h2 : kv.1 = k2 := by simpa using hkv
      simp [← h1, h2]
    · rw [if_neg hk]
      exact hkv
  next hany =>
    rw [List.any_append]
    rw [h]
    simp

lemma liqStep_hasKey_mono (username : String) (pid : Int)
    (acc : List (String × LiqOutcome) × St) (sq : String × Int) (k : String)
    (h : hasKey acc.1 k = true) : hasKey (liqStep username pid acc sq).1 k = true := by
  unfold liqStep
  split
  · split
    next heq => exact hasKey_dictSet_mono _ _ _ _ h
    next heq => exact hasKey_dictSet_mono _ _ _ _ h
  · exact h

lemma liqStep_hasKey_self (username : String) (pid : Int)
    (acc : List (String × LiqOutcome) × St) (sq : String × Int)
    (hq : 0 < sq.2) : hasKey (liqStep username pid acc sq).1 sq.1 = true := by
  unfold liqStep
  rw [if_pos hq]
  split
  next heq => exact hasKey_dictSet_self _ _ _
  next heq => exact hasKey_dictSet_self _ _ _

lemma foldl_liqStep_mono (username : String) (pid : Int)
    (l : List (String × Int)) (acc : List (String × LiqOutcome) × St) (k : String)
    (h : hasKey acc.1 k = true) :
    hasKey (l.foldl (liqStep username pid) acc).1 k = true := by
  induction l generalizing acc with
  | nil => exact h
  | cons sq rest ih =>
    exact ih (liqStep username pid acc sq) (liqStep_hasKey_mono username pid acc sq k h)

lemma foldl_liqStep_self (username : String) (pid : Int)
    (l : List (String × Int)) (acc : List (String × LiqOutcome) × St)
    (sym : String) (q : Int) (hmem : (sym, q) ∈ l) (hq : 0 < q) :
    hasKey (l.foldl (liqStep username pid) acc).1 sym = true := by
  induction l generalizing acc with
  | nil => simp at hmem
  | cons sq rest ih =>
    rcases List.mem_cons.mp hmem with heq | hmem2
    · rw [List.foldl_cons]
      apply foldl_liqStep_mono
      rw [← heq]
      exact liqStep_hasKey_self username pid acc (sym, q) hq
    · exact ih (liqStep username pid acc sq) hmem2

lemma liqPortfolio_hasKey_mono (username : String)
    (acc : List (String × LiqOutcome) × St) (ph : Int × List (String × Int))
    (k : String) (h : hasKey acc.1 k = true) :
    hasKey (liqPortfolio username acc ph).1 k = true := by
  unfold liqPortfolio
  exact foldl_liqStep_mono username ph.1 ph.2 acc k h

lemma foldl_liqPortfolio_mono (username : String)
    (snap : List (Int × List (String × Int)))
    (acc : List (String × LiqOutcome) × St) (k : String)
    (h : hasKey acc.1 k = true) :
    hasKey ((snap.foldl (liqPortfolio username) acc)).1 k = true := by
  induction snap generalizing acc with
  | nil => exact h
  | cons ph rest ih =>
    exact ih (liqPortfolio username acc ph)
      (liqPortfolio_hasKey_mono username acc ph k h)

lemma foldl_liqPortfolio_self (username : String)
    (snap : List (Int × List (String × Int)))
    (acc : List (String × LiqOutcome) × St) (pid : Int)
    (hs : List (String × Int)) (sym : String) (q : Int)
    (hmem : (pid, hs) ∈ snap) (hsq : (sym, q) ∈ hs) (hq : 0 < q) :
    hasKey ((snap.foldl (liqPortfolio username) acc)).1 sym = true := by
  induction snap generalizing acc with
  | nil => simp at hmem
  | cons ph rest ih =>
    rcases List.mem_cons.mp hmem with heq | hmem2
    · rw [List.foldl_cons]
      apply foldl_liqPortfolio_mono
      rw [← heq]
      unfold liqPortfolio
      exact foldl_liqStep_self username pid hs acc sym q hsq hq
    · exact ih (liqPortfolio username acc ph) hmem2

/-! ### Claim theorems -/

/-- C1: for an existing user owning the portfolio, with the ticker priced
and funds sufficient, buy succeeds, debits the balance by exactly
price*qty, increments the holdings row by qty, registers the security,
and appends exactly one BUY transaction with that quantity and trade
price. -/
theorem buy_success_spec (st : St) (uname sym : String) (qty pid : Int)
    (user : UserR) (pf : PortfolioR) (price : ℚ)
    (hu : pyStrip uname = uname) (hune : uname ≠ "")
    (hs1 : pyStrip sym = sym) (hs2 : pyUpper sym = sym) (hsne : sym ≠ "")
    (hq : 0 < qty)
    (hfind : query_user st uname = some user)
    (hpf : query_portfolio st pid = some pf)
    (hown : pf.owner = uname)
    (hpr : lookupPrice (get_price_map st) sym = some price)
    (hbal : price * (qty : ℚ) ≤ user.balance)
    (hnn : 0 ≤ invQty st pid sym) :
    (buy_to_portfolio st uname sym qty pid).1 = .ok () ∧
    query_user (buy_to_portfolio st uname sym qty pid).2 uname =
      some { user with balance := user.balance - price * (qty : ℚ) } ∧
    invQty (buy_to_portfolio st uname sym qty pid).2 pid sym =
      invQty st pid sym + qty ∧
    securityExists (buy_to_portfolio st uname sym qty pid).2 sym = true ∧
    (buy_to_portfolio st uname sym qty pid).2.transactions =
      st.transactions ++ [⟨uname, pid, sym, .buyT, qty, price⟩] := by
  have hbe := buy_ok_eq st uname sym qty pid user pf price hu hune hs1 hs2 hsne
    hq hfind hpf hown hpr hbal
  rw [hbe]
  refine ⟨rfl, ?_, ?_, ?_, ?_⟩
  · rw [query_user_buyFinal, hfind]
    rfl
  · exact invQty_buyFinal st uname sym qty pid user price hq hnn
  · exact securityExists_buyFinal st uname sym qty pid user price
  · exact buyFinal_transactions st uname sym qty pid user price

/-- C2: for an existing actor, validated quantity, an existing portfolio
the actor does not own, and a ticker absent from the price map, both buy
and sell fail with the authorization error (never SecurityNotAvailable):
ownership is checked strictly before ticker availability. -/
theorem trade_auth_before_availability (st : St) (uname sym : String)
    (qty pid : Int) (salePrice : Option ℚ) (user : UserR) (pf : PortfolioR)
    (hu : pyStrip uname = uname) (hune : uname ≠ "")
    (hsne : pyStrip sym ≠ "") (hq : 0 < qty)
    (hneg : negOverride salePrice = false)
    (hfind : query_user st uname = some user)
    (hpf : query_portfolio st pid = some pf)
    (hown : pf.owner ≠ uname)
    (_hmiss : lookupPrice (get_price_map st) (pyUpper (pyStrip sym)) = none) :
    buy_to_portfolio st uname sym qty pid = (.error .authorization, st) ∧
    sell_from_portfolio st uname sym qty pid salePrice =
      (.error .authorization, st) :=
  ⟨buy_auth_eq st uname sym qty pid user pf hu hune hsne hq hfind hpf hown,
   sell_auth_eq st uname sym qty pid salePrice user pf hu hune hsne hq hneg
     hfind hpf hown⟩

/-- C3: from a state whose holdings rows are all strictly positive and
whose balances are all non-negative, and with non-negative oracle
prices, any sequence of buy/sell operations leaves every holdings row
strictly positive (a row reaching zero is deleted outright) and every
balance non-negative after every operation. -/
theorem trade_sequence_invariant (st : St) (ops : List TradeOp)
    (h : InvOK st) (hp : PricesOK st) : InvOK (applyOps st ops) :=
  InvOK_applyOps st ops h hp

/-- C4: deleteUser fails UserNotFound when the user is absent; fails
AdminProtection with no mutation when the target is an admin and at most
one admin exists; otherwise deletes the user row; and a committed delete
never drives the admin count from ≥ 1 to 0. -/
theorem delete_user_spec (st : St) (uname : String) :
    (uname ≠ "" → query_user st uname = none →
      delete_user st uname = (.error .userNotFound, st)) ∧
    (∀ u, uname ≠ "" → query_user st uname = some u → u.role = "admin" →
      adminCount st ≤ 1 →
      delete_user st uname = (.error .adminProtection, st)) ∧
    (∀ u, uname ≠ "" → query_user st uname = some u →
      (u.role ≠ "admin" ∨ 2 ≤ adminCount st) →
      (delete_user st uname).1 = .ok () ∧
      (delete_user st uname).2.users =
        st.users.eraseP (fun v => v.username == pyStrip uname)) ∧
    (1 ≤ adminCount st → (delete_user st uname).1 = .ok () →
      1 ≤ adminCount (delete_user st uname).2) := by
  refine ⟨?_, ?_, ?_, ?_⟩
  · intro hne hnone
    unfold delete_user
    rw [if_neg hne]
    unfold query_user at hnone
    rw [hnone]
  · intro u hne hfind hrole hcount
    unfold delete_user
    rw [if_neg hne]
    unfold query_user at hfind
    rw [hfind]
    dsimp only
    rw [if_pos ⟨hrole, hcount⟩]
  · intro u hne hfind hor
    unfold delete_user
    rw [if_neg hne]
    unfold query_user at hfind
    rw [hfind]
    dsimp only
    rw [if_neg (by
      intro hand
      rcases hor with h1 | h2
      · exact h1 hand.1
      · omega)]
    exact ⟨rfl, rfl⟩
  · by_cases hne : uname = ""
    · subst hne
      unfold delete_user
      rw [if_pos rfl]
      intro _ hok
      simp at hok
    · intro hcount hok
      unfold delete_user at hok ⊢
      rw [if_neg hne] at hok ⊢
      cases hfind : st.users.find? (fun v => v.username == pyStrip uname) with
      | none =>
        rw [hfind] at hok
        simp at hok
      | some u =>
        rw [hfind] at hok
        dsimp only at hok ⊢
        by_cases hcond : u.role = "admin" ∧ adminCount st ≤ 1
        · rw [if_pos hcond] at hok
          simp at hok
        · rw [if_neg hcond] at hok ⊢
          dsimp only
          unfold adminCount
          dsimp only
          have hcp := countP_eraseP_find? (fun v => v.role == "admin")
            (fun v => v.username == pyStrip uname) st.users u hfind
          unfold adminCount at hcount hcond
          by_cases hrole : u.role = "admin"
          · have h2 : ¬ (st.users.countP (fun v => v.role == "admin") ≤ 1) :=
              fun hc => hcond ⟨hrole, hc⟩
            have hite : (if (fun v : UserR => v.role == "admin") u = true
                then 1 else 0) = 1 := by
              simp [hrole]
            rw [hite] at hcp
            omega
          · have hite : (if (fun v : UserR => v.role == "admin") u = true
                then 1 else 0) = 0 := by
              simp [hrole]
            rw [hite] at hcp
            omega

/-- C5: with the user, owned portfolio and priced ticker in place, a
sell of more shares than held fails InsufficientShares and a buy whose
cost exceeds the balance fails InsufficientFunds, and in both cases the
balances, holdings and transaction ledger are left untouched. -/
theorem insufficient_no_partial_mutation (st : St) (uname sym : String)
    (qty pid : Int) (salePrice : Option ℚ) (user : UserR) (pf : PortfolioR)
    (price : ℚ)
    (hu : pyStrip uname = uname) (hune : uname ≠ "")
    (hs1 : pyStrip sym = sym) (hs2 : pyUpper sym = sym) (hsne : sym ≠ "")
    (hq : 0 < qty)
    (hneg : negOverride salePrice = false)
    (hfind : query_user st uname = some user)
    (hpf : query_portfolio st pid = some pf)
    (hown : pf.owner = uname)
    (hpr : lookupPrice (get_price_map st) sym = some price) :
    (invQty st pid sym < qty →
      (sell_from_portfolio st uname sym qty pid salePrice).1 =
        .error .insufficientShares ∧
      (sell_from_portfolio st uname sym qty pid salePrice).2.users = st.users ∧
      (sell_from_portfolio st uname sym qty pid salePrice).2.investments =
        st.investments ∧
      (sell_from_portfolio st uname sym qty pid salePrice).2.transactions =
        st.transactions) ∧
    (user.balance < price * (qty : ℚ) →
      (buy_to_portfolio st uname sym qty pid).1 = .error .insufficientFunds ∧
      (buy_to_portfolio st uname sym qty pid).2.users = st.users ∧
      (buy_to_portfolio st uname sym qty pid).2.investments = st.investments ∧
      (buy_to_portfolio st uname sym qty pid).2.transactions =
        st.transactions) := by
  constructor
  · intro hsh
    rw [sell_insufficientShares_eq st uname sym qty pid salePrice user pf price
      hu hune hs1 hs2 hsne hq hneg hfind hpf hown hpr hsh]
    exact ⟨rfl, get_or_create_security_users st sym _ price,
      get_or_create_security_investments st sym _ price,
      get_or_create_security_transactions st sym _ price⟩
  · intro hbal
    rw [buy_insufficientFunds_eq st uname sym qty pid user pf price
      hu hune hs1 hs2 hsne hq hfind hpf hown hpr hbal]
    exact ⟨rfl, get_or_create_security_users st sym _ price,
      get_or_create_security_investments st sym _ price,
      get_or_create_security_transactions st sym _ price⟩

/-- C10: once ownership and ticker availability pass, the security row
for the normalized ticker is created before the funds/shares check, so a
trade failing InsufficientFunds or InsufficientShares still leaves the
newly created security row behind. -/
theorem lazy_security_creation_spec (st : St) (uname sym : String)
    (qty pid : Int) (salePrice : Option ℚ) (user : UserR) (pf : PortfolioR)
    (price : ℚ)
    (hu : pyStrip uname = uname) (hune : uname ≠ "")
    (hs1 : pyStrip sym = sym) (hs2 : pyUpper sym = sym) (hsne : sym ≠ "")
    (hq : 0 < qty)
    (hneg : negOverride salePrice = false)
    (hfind : query_user st uname = some user)
    (hpf : query_portfolio st pid = some pf)
    (hown : pf.owner = uname)
    (hpr : lookupPrice (get_price_map st) sym = some price)
    (_hnosec : securityExists st sym = false) :
    (user.balance < price * (qty : ℚ) →
      (buy_to_portfolio st uname sym qty pid).1 = .error .insufficientFunds ∧
      securityExists (buy_to_portfolio st uname sym qty pid).2 sym = true) ∧
    (invQty st pid sym < qty →
      (sell_from_portfolio st uname sym qty pid salePrice).1 =
        .error .insufficientShares ∧
      securityExists (sell_from_portfolio st uname sym qty pid salePrice).2
        sym = true) := by
  constructor
  · intro hbal
    rw [buy_insufficientFunds_eq st uname sym qty pid user pf price
      hu hune hs1 hs2 hsne hq hfind hpf hown hpr hbal]
    exact ⟨rfl, securityExists_get_or_create_self st sym _ price⟩
  · intro hsh
    rw [sell_insufficientShares_eq st uname sym qty pid salePrice user pf price
      hu hune hs1 hs2 hsne hq hneg hfind hpf hown hpr hsh]
    exact ⟨rfl, securityExists_get_or_create_self st sym _ price⟩

/-- C6 (amended): when the portfolio initially holds no shares of the
ticker, buying qty shares at price P and immediately selling qty shares
at sale price P (no override, oracle price P) succeeds, restores the
balance to its exact pre-buy value, and removes the holdings entry
entirely. -/
theorem round_trip_fresh_spec (st : St) (uname sym : String) (qty pid : Int)
    (user : UserR) (pf : PortfolioR) (price : ℚ)
    (hu : pyStrip uname = uname) (hune : uname ≠ "")
    (hs1 : pyStrip sym = sym) (hs2 : pyUpper sym = sym) (hsne : sym ≠ "")
    (hq : 0 < qty)
    (hfind : query_user st uname = some user)
    (hpf : query_portfolio st pid = some pf)
    (hown : pf.owner = uname)
    (hpr : lookupPrice (get_price_map st) sym = some price)
    (hbal : price * (qty : ℚ) ≤ user.balance)
    (hno : st.investments.find?
      (fun r => r.portfolioId == pid && r.ticker == (pyUpper sym)) = none) :
    (buy_to_portfolio st uname sym qty pid).1 = .ok () ∧
    (sell_from_portfolio (buy_to_portfolio st uname sym qty pid).2
      uname sym qty pid none).1 = .ok () ∧
    query_user (sell_from_portfolio (buy_to_portfolio st uname sym qty pid).2
      uname sym qty pid none).2 uname = some user ∧
    (sell_from_portfolio (buy_to_portfolio st uname sym qty pid).2
      uname sym qty pid none).2.investments = st.investments ∧
    hasInvRow (sell_from_portfolio (buy_to_portfolio st uname sym qty pid).2
      uname sym qty pid none).2 pid sym = false := by
  have hbe := buy_ok_eq st uname sym qty pid user pf price hu hune hs1 hs2 hsne
    hq hfind hpf hown hpr hbal
  have hb1 : (buy_to_portfolio st uname sym qty pid).1 = .ok () := by rw [hbe]
  have hb2 : (buy_to_portfolio st uname sym qty pid).2 =
      buyFinal st uname sym qty pid user price := by rw [hbe]
  have hBi : (buyFinal st uname sym qty pid user price).investments =
      st.investments ++ [⟨pid, pyUpper sym, qty⟩] :=
    buyFinal_investments_new st uname sym qty pid user price hq hno
  have hfindB : query_user (buyFinal st uname sym qty pid user price) uname =
      some { user with balance := user.balance - price * (qty : ℚ) } := by
    rw [query_user_buyFinal, hfind]
    rfl
  have hpfB : query_portfolio (buyFinal st uname sym qty pid user price) pid =
      some pf := by
    rw [query_portfolio_congr _ st
      (buyFinal_portfolios st uname sym qty pid user price), hpf]
  have hprB : lookupPrice
      (get_price_map (buyFinal st uname sym qty pid user price)) sym =
      some price := by
    rw [get_price_map_congr _ st
      (buyFinal_priceOverride st uname sym qty pid user price), hpr]
  have hinvB : invQty (buyFinal st uname sym qty pid user price) pid sym = qty := by
    unfold invQty
    rw [hBi, List.find?_append, hno]
    simp [List.find?]
  have hse := sell_ok_eq (buyFinal st uname sym qty pid user price) uname sym
    qty pid none { user with balance := user.balance - price * (qty : ℚ) } pf
    price hu hune hs1 hs2 hsne hq rfl hfindB hpfB hown hprB
    (le_of_eq hinvB.symm)
  have hs1' : (sell_from_portfolio (buyFinal st uname sym qty pid user price)
      uname sym qty pid none).1 = .ok () := by rw [hse]
  have hs2' : (sell_from_portfolio (buyFinal st uname sym qty pid user price)
      uname sym qty pid none).2 =
      sellFinal (buyFinal st uname sym qty pid user price) uname sym qty pid
        { user with balance := user.balance - price * (qty : ℚ) }
        ((none : Option ℚ).getD price) price := by rw [hse]
  have hsecB2 : securityExists
      (update_user_balance
        (get_or_create_security (buyFinal st uname sym qty pid user price) sym
          (get_security_name sym) price)
        uname ((user.balance - price * (qty : ℚ)) + price * (qty : ℚ))) sym
      = true := by
    rw [securityExists_update_user_balance]
    exact securityExists_get_or_create_self _ sym (get_security_name sym) price
  have hrowB : ((update_user_balance
      (get_or_create_security (buyFinal st uname sym qty pid user price) sym
        (get_security_name sym) price)
      uname ((user.balance - price * (qty : ℚ)) + price * (qty : ℚ))).investments.find?
      (fun r => r.portfolioId == pid && r.ticker == (pyUpper sym))).isSome = true := by
    rw [update_user_balance_investments, get_or_create_security_investments,
      hBi, List.find?_append, hno]
    simp [List.find?]
  have hfin_inv : (sell_from_portfolio (buyFinal st uname sym qty pid user price)
      uname sym qty pid none).2.investments = st.investments := by
    rw [hs2', sellFinal_investments, hinvB, sub_self]
    dsimp only [Option.getD]
    rw [update_investment_delete _ pid sym 0 le_rfl hsecB2 hrowB]
    rw [update_user_balance_investments, get_or_create_security_investments, hBi]
    apply eraseP_append_singleton
    · intro a ha
      have hall := List.find?_eq_none.mp hno a ha
      exact Bool.not_eq_true _ ▸ (eq_false_of_ne_true hall)
    · simp
  refine ⟨hb1, ?_, ?_, ?_, ?_⟩
  · rw [hb2, hs1']
  · rw [hb2, hs2', query_user_sellFinal, hfindB]
    have hcancel : user.balance - price * (qty : ℚ) + price * (qty : ℚ) =
        user.balance := sub_add_cancel user.balance (price * (qty : ℚ))
    dsimp only [Option.map, Option.getD]
    rw [hcancel]
  · rw [hb2]
    exact hfin_inv
  · rw [hb2]
    unfold hasInvRow
    rw [hfin_inv]
    exact (find?_none_iff_any_false _ _).mp hno

/-- C7 (amended): when the stored credential is not in hashed form
(legacy data), authenticate with the matching plaintext does not compare
directly and does not migrate; `check_password` returns false on the
non-hashed credential and the login fails with InvalidCredentials
(authenticate performs no write on any path). -/
theorem legacy_plaintext_login_fails (st : St) (uname pw s : String) (u : UserR)
    (hune : uname ≠ "") (hpne : pw ≠ "")
    (hfind : st.users.find? (fun v => v.username == pyStrip uname) = some u)
    (hlegacy : u.password = .raw s) :
    check_password pw u.password = false ∧
    authenticate st uname pw = .error .invalidCredentials := by
  have hcp : check_password pw u.password = false := by
    rw [hlegacy]
    rfl
  refine ⟨hcp, ?_⟩
  unfold authenticate
  rw [if_neg (by simp [hune, hpne]), hfind]
  dsimp only
  simp [hcp]

/-- C8 (amended): the sale price credited and recorded equals the
override when one is supplied and ≥ 0, and the oracle price when no
override is supplied; a sell whose supplied override is negative fails
with a validation error instead of completing at the oracle price. -/
theorem sell_price_selection_spec (st : St) (uname sym : String)
    (qty pid : Int) (salePrice : Option ℚ) (user : UserR) (pf : PortfolioR)
    (price : ℚ)
    (hu : pyStrip uname = uname) (hune : uname ≠ "")
    (hs1 : pyStrip sym = sym) (hs2 : pyUpper sym = sym) (hsne : sym ≠ "")
    (hq : 0 < qty)
    (hneg : negOverride salePrice = false)
    (hfind : query_user st uname = some user)
    (hpf : query_portfolio st pid = some pf)
    (hown : pf.owner = uname)
    (hpr : lookupPrice (get_price_map st) sym = some price)
    (hsh : qty ≤ invQty st pid sym) :
    ((sell_from_portfolio st uname sym qty pid salePrice).1 = .ok () ∧
     (sell_from_portfolio st uname sym qty pid salePrice).2.transactions =
       st.transactions ++
         [⟨uname, pid, sym, .sellT, qty, salePrice.getD price⟩] ∧
     query_user (sell_from_portfolio st uname sym qty pid salePrice).2 uname =
       some { user with
         balance := user.balance + (salePrice.getD price) * (qty : ℚ) }) ∧
    (∀ v : ℚ, v < 0 →
      sell_from_portfolio st uname sym qty pid (some v) =
        (.error .validation, st)) := by
  have hse := sell_ok_eq st uname sym qty pid salePrice user pf price hu hune
    hs1 hs2 hsne hq hneg hfind hpf hown hpr hsh
  have hs2' : (sell_from_portfolio st uname sym qty pid salePrice).2 =
      sellFinal st uname sym qty pid user (salePrice.getD price) price := by
    rw [hse]
  constructor
  · refine ⟨by rw [hse], ?_, ?_⟩
    · rw [hs2']
      exact sellFinal_transactions st uname sym qty pid user
        (salePrice.getD price) price
    · rw [hs2', query_user_sellFinal, hfind]
      rfl
  · intro v hv
    exact sell_negOverride_eq st uname sym qty pid v
      (by rw [hu]; exact hune) (by rw [hs1]; exact hsne) hq hv

section
attribute [local semireducible] Rat.mul Rat.add Rat.sub

/-- C9: liquidation returns a user-not-found outcome when the user is
absent and a no-holdings signal when the user owns no portfolio;
otherwise every positive-quantity symbol in every owned portfolio gets
an entry in the result map (one symbol's failure does not abort the
rest); on Scenario E both portfolios are fully sold and emptied, and a
state with an untradeable symbol still records the good symbol's sale. -/
theorem liquidate_spec (st : St) (uname : String) :
    (uname ≠ "" → query_user st uname = none →
      liquidate_investments st uname = (.userNotFoundR, st)) ∧
    (∀ u, uname ≠ "" → query_user st uname = some u →
      st.portfolios.filter (fun p => p.owner == uname) = [] →
      liquidate_investments st uname = (.noHoldings, st)) ∧
    (∀ u pf sym q, uname ≠ "" → query_user st uname = some u →
      pf ∈ st.portfolios → (pf.owner == uname) = true →
      (sym, q) ∈ holdingsOf st pf.id → 0 < q →
      ∃ m st2, liquidate_investments st uname = (.resultMap m, st2) ∧
        hasKey m sym = true) ∧
    ((liquidate_investments stScenE "eva").1 =
      .resultMap [("AAPL", .sold 5), ("GOOGL", .sold 3)] ∧
     (liquidate_investments stScenE "eva").2.investments = [] ∧
     (liquidate_investments stLiqBad "eva").1 =
      .resultMap [("FAKE", .failed .securityNotAvailable),
                  ("AAPL", .sold 5)]) := by
  refine ⟨?_, ?_, ?_, by decide, by decide, by decide⟩
  · intro hne hnone
    unfold liquidate_investments
    rw [if_neg hne, hnone]
  · intro u hne hfind hnil
    unfold liquidate_investments
    rw [if_neg hne, hfind]
    dsimp only
    rw [hnil]
    rfl
  · intro u pf sym q hne hfind hmem hownp hsq hq
    unfold liquidate_investments
    rw [if_neg hne, hfind]
    dsimp only
    have hpfmem : pf ∈ st.portfolios.filter (fun p => p.owner == uname) :=
      List.mem_filter.mpr ⟨hmem, hownp⟩
    have hnonempty : ¬ ((st.portfolios.filter
        (fun p => p.owner == uname)).isEmpty = true) := by
      rw [List.isEmpty_iff]
      intro hnil
      rw [hnil] at hpfmem
      simp at hpfmem
    rw [if_neg hnonempty]
    refine ⟨_, _, rfl, ?_⟩
    apply foldl_liqPortfolio_self uname _ _ pf.id (holdingsOf st pf.id) sym q
      _ hsq hq
    exact List.mem_map.mpr ⟨pf, hpfmem, rfl⟩

end

section
attribute [local semireducible] Rat.mul Rat.add Rat.sub

/-- Witness for C1 at Scenario A: buy 5 AAPL at 175 from a 1000 balance
leaves balance 125, holdings 5 and one BUY record. -/
theorem buy_success_spec_witness :
    (buy_to_portfolio stScenA "alice" "AAPL" 5 1).1 = .ok () ∧
    query_user (buy_to_portfolio stScenA "alice" "AAPL" 5 1).2 "alice" =
      some ⟨"alice", .digest "pw", "Alice", "L", 125, "user"⟩ ∧
    invQty (buy_to_portfolio stScenA "alice" "AAPL" 5 1).2 1 "AAPL" = 5 ∧
    securityExists (buy_to_portfolio stScenA "alice" "AAPL" 5 1).2 "AAPL" = true ∧
    (buy_to_portfolio stScenA "alice" "AAPL" 5 1).2.transactions =
      [⟨"alice", 1, "AAPL", .buyT, 5, 175⟩] := by
  have h := buy_success_spec stScenA "alice" "AAPL" 5 1 uAlice pfMain 175
    (by decide) (by decide) (by decide) (by decide) (by decide) (by decide)
    (by decide) (by decide) (by decide) (by decide) (by decide) (by decide)
  obtain ⟨h1, h2, h3, h4, h5⟩ := h
  refine ⟨h1, ?_, ?_, h4, ?_⟩
  · rw [h2]
    decide
  · rw [h3]
    decide
  · rw [h5]
    decide

/-- Witness for C2: mallory probing alice's portfolio with an unknown
ticker sees the authorization error on both buy and sell. -/
theorem trade_auth_witness :
    buy_to_portfolio stTwoUsers "mallory" "FAKE" 3 1 =
      (.error .authorization, stTwoUsers) ∧
    sell_from_portfolio stTwoUsers "mallory" "FAKE" 3 1 none =
      (.error .authorization, stTwoUsers) :=
  trade_auth_before_availability stTwoUsers "mallory" "FAKE" 3 1 none
    uMallory pfMain (by decide) (by decide) (by decide) (by decide)
    (by decide) (by decide) (by decide) (by decide) (by decide)

/-- Witness for C3: a concrete buy-then-sell sequence from Scenario A
keeps the invariant. -/
theorem trade_sequence_invariant_witness :
    InvOK stScenA ∧ PricesOK stScenA ∧
    InvOK (applyOps stScenA
      [.buyOp "alice" "AAPL" 5 1, .sellOp "alice" "AAPL" 2 1 none]) :=
  ⟨by decide, by decide,
   trade_sequence_invariant stScenA
     [.buyOp "alice" "AAPL" 5 1, .sellOp "alice" "AAPL" 2 1 none]
     (by decide) (by decide)⟩

/-- Witness for C4 (Scenario D): deleting one of two admins succeeds and
leaves at least one admin. -/
theorem delete_user_spec_witness :
    (delete_user stAdmins "root1").1 = .ok () ∧
    1 ≤ adminCount (delete_user stAdmins "root1").2 := by
  have h := delete_user_spec stAdmins "root1"
  have hok := (h.2.2.1 admRoot1 (by decide) (by decide) (Or.inr (by decide))).1
  exact ⟨hok, h.2.2.2 (by decide) hok⟩

/-- Witness for C5 (Scenario B): selling 15 of 10 held AAPL fails with
InsufficientShares, and an over-budget buy fails with
InsufficientFunds, leaving balance, holdings and ledger untouched. -/
theorem insufficient_witness :
    (sell_from_portfolio stScenB "bob" "AAPL" 15 2 none).1 =
      .error .insufficientShares ∧
    (sell_from_portfolio stScenB "bob" "AAPL" 15 2 none).2.users =
      stScenB.users ∧
    (sell_from_portfolio stScenB "bob" "AAPL" 15 2 none).2.investments =
      stScenB.investments ∧
    (sell_from_portfolio stScenB "bob" "AAPL" 15 2 none).2.transactions =
      stScenB.transactions ∧
    (buy_to_portfolio stScenB "bob" "AAPL" 15 2).1 =
      .error .insufficientFunds ∧
    (buy_to_portfolio stScenB "bob" "AAPL" 15 2).2.users = stScenB.users ∧
    (buy_to_portfolio stScenB "bob" "AAPL" 15 2).2.investments =
      stScenB.investments ∧
    (buy_to_portfolio stScenB "bob" "AAPL" 15 2).2.transactions =
      stScenB.transactions := by
  have h := insufficient_no_partial_mutation stScenB "bob" "AAPL" 15 2 none
    uBob pfBob 175 (by decide) (by decide) (by decide) (by decide) (by decide)
    (by decide) (by decide) (by decide) (by decide) (by decide) (by decide)
  have hs := h.1 (by decide)
  have hb := h.2 (by decide)
  exact ⟨hs.1, hs.2.1, hs.2.2.1, hs.2.2.2, hb.1, hb.2.1, hb.2.2.1, hb.2.2.2⟩

/-- Counterexample for C6 as stated: with a pre-existing holding of 3
AAPL, buying 5 and selling 5 back leaves the holdings entry (quantity 3)
in place rather than removing it entirely. -/
theorem round_trip_preheld_counterexample :
    (buy_to_portfolio stPreHeld "dave" "AAPL" 5 7).1 = .ok () ∧
    (sell_from_portfolio (buy_to_portfolio stPreHeld "dave" "AAPL" 5 7).2
      "dave" "AAPL" 5 7 none).1 = .ok () ∧
    invQty (sell_from_portfolio (buy_to_portfolio stPreHeld "dave" "AAPL" 5 7).2
      "dave" "AAPL" 5 7 none).2 7 "AAPL" = 3 ∧
    hasInvRow (sell_from_portfolio (buy_to_portfolio stPreHeld "dave" "AAPL" 5 7).2
      "dave" "AAPL" 5 7 none).2 7 "AAPL" = true := by
  decide

/-- Witness for C6 (amended): from an empty portfolio, buy 5 AAPL then
sell 5 AAPL restores the balance and removes the entry. -/
theorem round_trip_fresh_witness :
    (buy_to_portfolio stScenA "alice" "AAPL" 5 1).1 = .ok () ∧
    (sell_from_portfolio (buy_to_portfolio stScenA "alice" "AAPL" 5 1).2
      "alice" "AAPL" 5 1 none).1 = .ok () ∧
    query_user (sell_from_portfolio (buy_to_portfolio stScenA "alice" "AAPL" 5 1).2
      "alice" "AAPL" 5 1 none).2 "alice" = some uAlice ∧
    (sell_from_portfolio (buy_to_portfolio stScenA "alice" "AAPL" 5 1).2
      "alice" "AAPL" 5 1 none).2.investments = stScenA.investments ∧
    hasInvRow (sell_from_portfolio (buy_to_portfolio stScenA "alice" "AAPL" 5 1).2
      "alice" "AAPL" 5 1 none).2 1 "AAPL" = false :=
  round_trip_fresh_spec stScenA "alice" "AAPL" 5 1 uAlice pfMain 175
    (by decide) (by decide) (by decide) (by decide) (by decide) (by decide)
    (by decide) (by decide) (by decide) (by decide) (by decide) (by decide)

/-- Counterexample for C7 as stated: carol's stored credential is the
legacy plaintext "hunter2", yet authenticating with that exact plaintext
fails with InvalidCredentials (the claimed direct comparison and
re-hash-and-persist migration do not happen). -/
theorem legacy_plaintext_counterexample :
    uCarol.password = .raw "hunter2" ∧
    authenticate stLegacy "carol" "hunter2" = .error .invalidCredentials := by
  decide

/-- Witness for C7 (amended) at the legacy state. -/
theorem legacy_plaintext_witness :
    check_password "hunter2" uCarol.password = false ∧
    authenticate stLegacy "carol" "hunter2" = .error .invalidCredentials :=
  legacy_plaintext_login_fails stLegacy "carol" "hunter2" "hunter2" uCarol
    (by decide) (by decide) (by decide) (by decide)

/-- Counterexample for C8 as stated: a sell whose override is negative
fails with a validation error rather than completing at the oracle
price (ticker priced, shares sufficient). -/
theorem sell_negative_override_counterexample :
    lookupPrice (get_price_map stScenB) "AAPL" = some 175 ∧
    invQty stScenB 2 "AAPL" = 10 ∧
    sell_from_portfolio stScenB "bob" "AAPL" 2 2 (some (-1)) =
      (.error .validation, stScenB) := by
  decide

/-- Witness for C8 (amended): override 99 is used for the ledger record
and the balance credit; override -2 is rejected. -/
theorem sell_price_selection_witness :
    (sell_from_portfolio stScenB "bob" "AAPL" 2 2 (some 99)).1 = .ok () ∧
    (sell_from_portfolio stScenB "bob" "AAPL" 2 2 (some 99)).2.transactions =
      stScenB.transactions ++ [⟨"bob", 2, "AAPL", .sellT, 2, 99⟩] ∧
    query_user (sell_from_portfolio stScenB "bob" "AAPL" 2 2 (some 99)).2
      "bob" = some { uBob with balance := uBob.balance + 99 * ((2 : Int) : ℚ) } ∧
    sell_from_portfolio stScenB "bob" "AAPL" 2 2 (some (-2)) =
      (.error .validation, stScenB) := by
  have h := sell_price_selection_spec stScenB "bob" "AAPL" 2 2 (some 99)
    uBob pfBob 175 (by decide) (by decide) (by decide) (by decide) (by decide)
    (by decide) (by decide) (by decide) (by decide) (by decide) (by decide)
    (by decide)
  exact ⟨h.1.1, h.1.2.1, h.1.2.2, h.2 (-2) (by decide)⟩

/-- Witness for C9: liquidating an absent user reports user-not-found. -/
theorem liquidate_witness :
    liquidate_investments stScenE "ghost" = (.userNotFoundR, stScenE) :=
  (liquidate_spec stScenE "ghost").1 (by decide) (by decide)

/-- Witness for C10: with no security rows, a failing buy and a failing
sell both leave a freshly created AAPL security row behind. -/
theorem lazy_security_witness :
    securityExists stNoSec "AAPL" = false ∧
    (buy_to_portfolio stNoSec "bob" "AAPL" 5 2).1 =
      .error .insufficientFunds ∧
    securityExists (buy_to_portfolio stNoSec "bob" "AAPL" 5 2).2 "AAPL" = true ∧
    (sell_from_portfolio stNoSec "bob" "AAPL" 5 2 none).1 =
      .error .insufficientShares ∧
    securityExists (sell_from_portfolio stNoSec "bob" "AAPL" 5 2 none).2
      "AAPL" = true := by
  have h := lazy_security_creation_spec stNoSec "bob" "AAPL" 5 2 none
    uBob pfBob 175 (by decide) (by decide) (by decide) (by decide) (by decide)
    (by decide) (by decide) (by decide) (by decide) (by decide) (by decide)
    (by decide)
  exact ⟨by decide, (h.1 (by decide)).1, (h.1 (by decide)).2,
    (h.2 (by decide)).1, (h.2 (by decide)).2⟩

end
